import Mathlib

/-!
Shallow embedding of the Vulkan pixel-history subsystem
(`renderdoc/driver/vulkan/vk_pixelhistory.cpp`).  Machine integers are
modelled as `Nat`/`Int` with explicit `% 2^32` where C++ overflow can
matter; GPU-side results (occlusion counts, readback buffers, format
conversions) are oracle parameters, since they are produced by the
external replay engine and hardware.
-/

namespace VkPixelHistory

/-- ResourceUsage enum of the public replay API, constructors listed in
declaration order so that the C++ comparisons `usage >= VS_RWResource`
and `usage <= CS_RWResource` can be evaluated on constructor indices. -/
inductive ResourceUsage where
  | Unused
  | VertexBuffer
  | IndexBuffer
  | VS_Constants
  | HS_Constants
  | DS_Constants
  | GS_Constants
  | PS_Constants
  | CS_Constants
  | All_Constants
  | StreamOut
  | VS_Resource
  | HS_Resource
  | DS_Resource
  | GS_Resource
  | PS_Resource
  | CS_Resource
  | All_Resource
  | VS_RWResource
  | HS_RWResource
  | DS_RWResource
  | GS_RWResource
  | PS_RWResource
  | CS_RWResource
  | All_RWResource
  | InputTarget
  | ColorTarget
  | DepthStencilTarget
  | Indirect
  | Clear
  | GenMips
  | Resolve
  | ResolveSrc
  | ResolveDst
  | Copy
  | CopySrc
  | CopyDst
  | Barrier
  | CPUWrite
  deriving DecidableEq, Repr

/-- Constructor index of a `ResourceUsage`, used for the enum range
comparisons in `isDirectWrite`. -/
def usageIdx : ResourceUsage → Nat
  | .Unused => 0
  | .VertexBuffer => 1
  | .IndexBuffer => 2
  | .VS_Constants => 3
  | .HS_Constants => 4
  | .DS_Constants => 5
  | .GS_Constants => 6
  | .PS_Constants => 7
  | .CS_Constants => 8
  | .All_Constants => 9
  | .StreamOut => 10
  | .VS_Resource => 11
  | .HS_Resource => 12
  | .DS_Resource => 13
  | .GS_Resource => 14
  | .PS_Resource => 15
  | .CS_Resource => 16
  | .All_Resource => 17
  | .VS_RWResource => 18
  | .HS_RWResource => 19
  | .DS_RWResource => 20
  | .GS_RWResource => 21
  | .PS_RWResource => 22
  | .CS_RWResource => 23
  | .All_RWResource => 24
  | .InputTarget => 25
  | .ColorTarget => 26
  | .DepthStencilTarget => 27
  | .Indirect => 28
  | .Clear => 29
  | .GenMips => 30
  | .Resolve => 31
  | .ResolveSrc => 32
  | .ResolveDst => 33
  | .Copy => 34
  | .CopySrc => 35
  | .CopyDst => 36
  | .Barrier => 37
  | .CPUWrite => 38

/-- Embedding of `isDirectWrite` (vk_pixelhistory.cpp lines 33-39). -/
def isDirectWrite (usage : ResourceUsage) : Bool :=
  (decide (usageIdx ResourceUsage.VS_RWResource ≤ usageIdx usage) &&
      decide (usageIdx usage ≤ usageIdx ResourceUsage.CS_RWResource)) ||
    usage == ResourceUsage.CopyDst || usage == ResourceUsage.Copy ||
    usage == ResourceUsage.Resolve || usage == ResourceUsage.ResolveDst ||
    usage == ResourceUsage.GenMips

/-! Event flag bits (vk_pixelhistory.cpp lines 41-59). -/

def TestEnabled_Culling : Nat := 1

def TestEnabled_Scissor : Nat := 2

def TestEnabled_SampleMask : Nat := 4

def TestEnabled_DepthBounds : Nat := 8

def TestEnabled_StencilTesting : Nat := 16

def TestEnabled_DepthTesting : Nat := 32

def TestEnabled_FragmentDiscard : Nat := 64

def Blending_Enabled : Nat := 128

def UnboundFragmentShader : Nat := 256

def TestMustFail_Culling : Nat := 512

def TestMustFail_Scissor : Nat := 1024

def TestMustPass_Scissor : Nat := 2048

def TestMustFail_DepthTesting : Nat := 4096

def TestMustFail_StencilTesting : Nat := 8192

def TestMustFail_SampleMask : Nat := 16384

/-- Test of `eventFlags & bit` as in the C++ `if(eventFlags & Bit)` guards. -/
def hasFlag (flags bit : Nat) : Bool := flags &&& bit != 0

/-- The fixed-function tests that `TestsFailedCallback` can isolate with a
dedicated occlusion query (the per-test replays of `ReplayDrawWithTests`). -/
inductive TestKind where
  | culling
  | scissor
  | sampleMask
  | depthBounds
  | stencil
  | depth
  | discard
  deriving DecidableEq, Repr

/-- Position of a test in the fixed sequence in which
`ReplayDrawWithTests` issues the per-test replays. -/
def testOrder : TestKind → Nat
  | .culling => 0
  | .scissor => 1
  | .sampleMask => 2
  | .depthBounds => 3
  | .stencil => 4
  | .depth => 5
  | .discard => 6

/-- One-element list when the guard holds: a conditionally issued query. -/
def queryIf (b : Bool) (t : TestKind) : List TestKind := if b then [t] else []

def cullQ (f : Nat) : List TestKind :=
  queryIf (hasFlag f TestEnabled_Culling) TestKind.culling

/-- Guard of the isolated scissor replay (line 1667):
`(eventFlags & (TestEnabled_Scissor | TestMustPass_Scissor)) == TestEnabled_Scissor`. -/
def scisQ (f : Nat) : List TestKind :=
  queryIf (f &&& (TestEnabled_Scissor ||| TestMustPass_Scissor) == TestEnabled_Scissor)
    TestKind.scissor

def maskQ (f : Nat) : List TestKind :=
  queryIf (hasFlag f TestEnabled_SampleMask) TestKind.sampleMask

def boundsQ (f : Nat) : List TestKind :=
  queryIf (hasFlag f TestEnabled_DepthBounds) TestKind.depthBounds

def stencilQ (f : Nat) : List TestKind :=
  queryIf (hasFlag f TestEnabled_StencilTesting) TestKind.stencil

def depthQ (f : Nat) : List TestKind :=
  queryIf (hasFlag f TestEnabled_DepthTesting) TestKind.depth

def discardQ (f : Nat) : List TestKind :=
  queryIf (hasFlag f TestEnabled_FragmentDiscard) TestKind.discard

/-- Sequence of per-test occlusion queries that
`TestsFailedCallback::ReplayDrawWithTests` (lines 1621-1750) issues for a
draw with the given event flags, in issue order.  Each `TestMustFail_*`
guard is an early `return`, so it cuts off every replay that the code
would have issued after that point. -/
def ReplayDrawWithTestsQueries (f : Nat) : List TestKind :=
  if hasFlag f TestMustFail_Culling then []
  else if hasFlag f TestMustFail_Scissor then cullQ f
  else if hasFlag f TestMustFail_SampleMask then cullQ f ++ scisQ f
  else if hasFlag f TestMustFail_StencilTesting then
    cullQ f ++ scisQ f ++ maskQ f ++ boundsQ f
  else if hasFlag f TestMustFail_DepthTesting then
    cullQ f ++ scisQ f ++ maskQ f ++ boundsQ f ++ stencilQ f
  else
    cullQ f ++ scisQ f ++ maskQ f ++ boundsQ f ++ stencilQ f ++ depthQ f ++ discardQ f

/-! Fixed-function pipeline state consumed by
`TestsFailedCallback::CalculateEventFlags` (lines 1495-1607). -/

inductive VkCompareOp where
  | Never
  | Less
  | Equal
  | LessOrEqual
  | Greater
  | NotEqual
  | GreaterOrEqual
  | Always
  deriving DecidableEq, Repr

inductive VkCullMode where
  | noCull
  | frontBit
  | backBit
  | frontAndBack
  deriving DecidableEq, Repr

structure StencilOpState where
  compareOp : VkCompareOp
  deriving DecidableEq, Repr

structure ColorBlendAttachment where
  blendEnable : Bool
  deriving DecidableEq, Repr

/-- VkRect2D: offsets are int32, extents are uint32. -/
structure VkRect2D where
  offsetX : Int
  offsetY : Int
  extentW : Nat
  extentH : Nat
  deriving DecidableEq, Repr

/-- Graphics pipeline creation state that `CalculateEventFlags` inspects. -/
structure PipelineInfo where
  cullMode : VkCullMode
  depthBoundsEnable : Bool
  depthTestEnable : Bool
  depthCompareOp : VkCompareOp
  stencilTestEnable : Bool
  front : StencilOpState
  back : StencilOpState
  dynamicScissor : Bool
  scissors : List VkRect2D
  attachments : List ColorBlendAttachment
  sampleMask : Nat
  fragmentShaderModule : Option Nat
  deriving Repr

/-- Dynamic command-buffer state (`VulkanRenderState`) read when the
pipeline declares the scissor as dynamic state. -/
structure RenderState where
  scissors : List VkRect2D
  deriving Repr

/-- C++ cast of an int32 value to uint32 (`(uint32_t)offset.x`). -/
def u32cast (i : Int) : Nat := (i % 4294967296).toNat

/-- Scissor-rectangle containment test of lines 1557-1559.  `offset.x` is
cast to uint32 for the lower-bound comparisons, and `offset.x +
extent.width` is computed in uint32 arithmetic. -/
def scissorContainsPixel (x y : Nat) (r : VkRect2D) : Bool :=
  decide (u32cast r.offsetX ≤ x) && decide (u32cast r.offsetY ≤ y) &&
    decide (x < (u32cast r.offsetX + r.extentW) % 4294967296) &&
    decide (y < (u32cast r.offsetY + r.extentH) % 4294967296)

/-- Culling block of `CalculateEventFlags` (lines 1500-1507). -/
def cullingFlags (p : PipelineInfo) : Nat :=
  (if p.cullMode ≠ VkCullMode.noCull then TestEnabled_Culling else 0) |||
    (if p.cullMode = VkCullMode.frontAndBack then TestMustFail_Culling else 0)

/-- Depth and stencil block of `CalculateEventFlags` (lines 1509-1534). -/
def depthStencilFlags (p : PipelineInfo) : Nat :=
  (if p.depthBoundsEnable then TestEnabled_DepthBounds else 0) |||
    (if p.depthTestEnable then
        (if p.depthCompareOp ≠ VkCompareOp.Always then TestEnabled_DepthTesting else 0) |||
          (if p.depthCompareOp = VkCompareOp.Never then TestMustFail_DepthTesting else 0)
      else 0) |||
    (if p.stencilTestEnable then
        (if p.front.compareOp ≠ VkCompareOp.Always ∨ p.back.compareOp ≠ VkCompareOp.Always then
            TestEnabled_StencilTesting
          else 0) |||
          (if (p.front.compareOp = VkCompareOp.Never ∧ p.back.compareOp = VkCompareOp.Never) ∨
              (p.front.compareOp = VkCompareOp.Never ∧ p.cullMode = VkCullMode.backBit) ∨
              (p.cullMode = VkCullMode.frontBit ∧ p.back.compareOp = VkCompareOp.Never) then
            TestMustFail_StencilTesting
          else 0)
      else 0)

/-- Scissor block of `CalculateEventFlags` (lines 1536-1568): the pixel
inside no scissor rect forces a must-fail, inside all of them (vacuously
true for an empty list) a must-pass.  Note that `TestEnabled_Scissor` is
never produced. -/
def scissorFlags (x y : Nat) (p : PipelineInfo) (st : RenderState) : Nat :=
  let scissors := if p.dynamicScissor then st.scissors else p.scissors
  (if ¬ scissors.any (scissorContainsPixel x y) then TestMustFail_Scissor else 0) |||
    (if scissors.all (scissorContainsPixel x y) then TestMustPass_Scissor else 0)

/-- Blending block of `CalculateEventFlags` (lines 1570-1589). -/
def blendingFlags (independentBlend : Bool) (p : PipelineInfo) : Nat :=
  if independentBlend then
    if p.attachments.any (·.blendEnable) then Blending_Enabled else 0
  else
    match p.attachments with
    | [] => 0
    | a :: _ => if a.blendEnable then Blending_Enabled else 0

/-- Sample block of `CalculateEventFlags` (lines 1594-1602):
`TestEnabled_SampleMask` is set unconditionally. -/
def sampleFlags (sampleMask : Nat) (p : PipelineInfo) : Nat :=
  TestEnabled_SampleMask |||
    (if p.sampleMask &&& sampleMask = 0 then TestMustFail_SampleMask else 0)

/-- Embedding of `TestsFailedCallback::CalculateEventFlags`
(lines 1495-1607): static per-event flags derived from fixed-function
pipeline state.  `TestEnabled_FragmentDiscard` is set unconditionally. -/
def CalculateEventFlags (independentBlend : Bool) (x y sampleMask : Nat)
    (p : PipelineInfo) (st : RenderState) : Nat :=
  cullingFlags p ||| depthStencilFlags p ||| scissorFlags x y p st |||
    blendingFlags independentBlend p |||
    (if p.fragmentShaderModule = none then UnboundFragmentShader else 0) |||
    sampleFlags sampleMask p ||| TestEnabled_FragmentDiscard

/-! Output record and the test-failure post-processing. -/

/-- Converted pixel value of the output record (`ModificationValue`):
`col` is the color after the external format conversion
(`ConvertComponents`, modelled by an oracle `Nat → Nat`), `depth` the raw
float bits copied from the readback buffer, `stencil` the int8 stencil. -/
structure ModificationValue where
  col : Nat
  depth : Nat
  stencil : Int
  deriving DecidableEq, Repr

/-- Output record (`PixelModification`) as filled in by this file. -/
structure PixelModification where
  eventId : Nat
  directShaderWrite : Bool
  unboundPS : Bool
  fragIndex : Nat
  preMod : ModificationValue
  shaderOut : ModificationValue
  postMod : ModificationValue
  backfaceCulled : Bool
  depthClipped : Bool
  scissorClipped : Bool
  sampleMasked : Bool
  stencilTestFailed : Bool
  depthTestFailed : Bool
  shaderDiscarded : Bool
  primitiveID : Int
  deriving DecidableEq, Repr

/-- Zero-initialised record (`RDCEraseEl(mod)`, line 2966). -/
def emptyPixelModification : PixelModification where
  eventId := 0
  directShaderWrite := false
  unboundPS := false
  fragIndex := 0
  preMod := ⟨0, 0, 0⟩
  shaderOut := ⟨0, 0, 0⟩
  postMod := ⟨0, 0, 0⟩
  backfaceCulled := false
  depthClipped := false
  scissorClipped := false
  sampleMasked := false
  stencilTestFailed := false
  depthTestFailed := false
  shaderDiscarded := false
  primitiveID := 0

instance : Inhabited PixelModification := ⟨emptyPixelModification⟩

/-- Static must-fail flag application of `VulkanReplay::PixelHistory`
(lines 2975-2985).  `TestMustFail_StencilTesting` has no corresponding
branch in the source. -/
def applyStaticFlags (flags : Nat) (mod : PixelModification) : PixelModification :=
  let m1 := if hasFlag flags TestMustFail_Culling then { mod with backfaceCulled := true } else mod
  let m2 :=
    if hasFlag flags TestMustFail_DepthTesting then { m1 with depthTestFailed := true } else m1
  let m3 := if hasFlag flags TestMustFail_Scissor then { m2 with scissorClipped := true } else m2
  let m4 := if hasFlag flags TestMustFail_SampleMask then { m3 with sampleMasked := true } else m3
  if hasFlag flags UnboundFragmentShader then { m4 with unboundPS := true } else m4

/-- State threaded through `UpdateTestsFailed`: the record plus the list
of per-test occlusion results read so far (`tfCb->GetOcclusionResult`
calls, in read order). -/
abbrev TfState := PixelModification × List TestKind

/-- Depth block and the early-fragment-tests discard block of
`UpdateTestsFailed` (lines 2808-2821). -/
def tfDepth (earlyFragmentTests : Bool) (flags : Nat) (occl : TestKind → Nat)
    (s : TfState) : TfState :=
  let s7 :=
    if flags &&& (TestEnabled_DepthTesting ||| TestMustFail_DepthTesting) ==
        TestEnabled_DepthTesting then
      ({ s.1 with depthTestFailed := occl TestKind.depth == 0 }, s.2 ++ [TestKind.depth])
    else s
  if s7.1.depthTestFailed then s7
  else if earlyFragmentTests then
    ({ s7.1 with shaderDiscarded := occl TestKind.discard == 0 }, s7.2 ++ [TestKind.discard])
  else s7

/-- Stencil block of `UpdateTestsFailed` (lines 2799-2806). -/
def tfStencil (earlyFragmentTests : Bool) (flags : Nat) (occl : TestKind → Nat)
    (s : TfState) : TfState :=
  let s6 :=
    if flags &&& (TestEnabled_StencilTesting ||| TestMustFail_StencilTesting) ==
        TestEnabled_StencilTesting then
      ({ s.1 with stencilTestFailed := occl TestKind.stencil == 0 }, s.2 ++ [TestKind.stencil])
    else s
  if s6.1.stencilTestFailed then s6 else tfDepth earlyFragmentTests flags occl s6

/-- Depth-bounds block of `UpdateTestsFailed` (lines 2791-2797). -/
def tfDepthBounds (earlyFragmentTests : Bool) (flags : Nat) (occl : TestKind → Nat)
    (s : TfState) : TfState :=
  let s5 :=
    if hasFlag flags TestEnabled_DepthBounds then
      ({ s.1 with depthClipped := occl TestKind.depthBounds == 0 }, s.2 ++ [TestKind.depthBounds])
    else s
  if s5.1.depthClipped then s5 else tfStencil earlyFragmentTests flags occl s5

/-- Default-order shader-discard block of `UpdateTestsFailed`
(lines 2782-2789), executed when early fragment tests are off. -/
def tfDiscard (earlyFragmentTests : Bool) (flags : Nat) (occl : TestKind → Nat)
    (s : TfState) : TfState :=
  let s4 :=
    if !earlyFragmentTests then
      ({ s.1 with shaderDiscarded := occl TestKind.discard == 0 }, s.2 ++ [TestKind.discard])
    else s
  if !earlyFragmentTests && s4.1.shaderDiscarded then s4
  else tfDepthBounds earlyFragmentTests flags occl s4

/-- Sample-mask block of `UpdateTestsFailed` (lines 2774-2780). -/
def tfSampleMask (earlyFragmentTests : Bool) (flags : Nat) (occl : TestKind → Nat)
    (s : TfState) : TfState :=
  let s3 :=
    if flags &&& (TestEnabled_SampleMask ||| TestMustFail_SampleMask) ==
        TestEnabled_SampleMask then
      ({ s.1 with sampleMasked := occl TestKind.sampleMask == 0 }, s.2 ++ [TestKind.sampleMask])
    else s
  if s3.1.sampleMasked then s3 else tfDiscard earlyFragmentTests flags occl s3

/-- Scissor block of `UpdateTestsFailed` (lines 2763-2770). -/
def tfScissor (earlyFragmentTests : Bool) (flags : Nat) (occl : TestKind → Nat)
    (s : TfState) : TfState :=
  let s2 :=
    if flags &&& (TestEnabled_Scissor ||| TestMustPass_Scissor ||| TestMustFail_Scissor) ==
        TestEnabled_Scissor then
      ({ s.1 with scissorClipped := occl TestKind.scissor == 0 }, s.2 ++ [TestKind.scissor])
    else s
  if s2.1.scissorClipped then s2 else tfSampleMask earlyFragmentTests flags occl s2

/-- Embedding of `UpdateTestsFailed` (lines 2749-2822), factored into one
function per block with the early `return`s preserved: each `if(mod.X)
return;` cuts off the remaining blocks.  Returns the updated record
together with the list of per-test occlusion results read, in read
order.  `occl` is the occlusion-result oracle for this event. -/
def UpdateTestsFailed (earlyFragmentTests : Bool) (flags : Nat) (occl : TestKind → Nat)
    (mod0 : PixelModification) : PixelModification × List TestKind :=
  let s1 :=
    if flags &&& (TestEnabled_Culling ||| TestMustFail_Culling) == TestEnabled_Culling then
      ({ mod0 with backfaceCulled := occl TestKind.culling == 0 }, [TestKind.culling])
    else (mod0, ([] : List TestKind))
  if s1.1.backfaceCulled then s1 else tfScissor earlyFragmentTests flags occl s1

/-- Early-fragment-tests detection in `TestsFailedCallback::PreDraw`
(lines 1400-1403): hardcoded `false` for every event (TODO in the
source). -/
def hasEarlyFragments (_eventId : Nat) : Bool := false

/-! Orchestration (`VulkanReplay::PixelHistory`, lines 2830-3139). -/

/-- Input candidate event: id plus recorded usage (`EventUsage`).  The
`view` member of the source struct is only tested against a null id in a
TODO branch with an empty body (lines 2917-2920) and therefore has no
effect on the result. -/
structure EventUsage where
  eventId : Nat
  usage : ResourceUsage
  deriving DecidableEq, Repr

/-- Draw events surviving the candidate occlusion filter
(lines 2910-2935): not a clear or direct write, and a nonzero occlusion
count.  `occl` is `VulkanOcclusionCallback::GetOcclusionResult`. -/
def gatherDrawEvents (occl : Nat → Nat) (events : List EventUsage) : List Nat :=
  events.filterMap fun e =>
    if isDirectWrite e.usage || e.usage == ResourceUsage.Clear then none
    else if occl e.eventId > 0 then some e.eventId else none

/-- Events kept for the modification-capture pass (`modEvents`,
lines 2910-2935): every clear or direct write, and every draw with a
nonzero occlusion count. -/
def gatherModEvents (occl : Nat → Nat) (events : List EventUsage) : List Nat :=
  events.filterMap fun e =>
    if isDirectWrite e.usage || e.usage == ResourceUsage.Clear then some e.eventId
    else if occl e.eventId > 0 then some e.eventId else none

/-- Construction of the history entry for one kept event
(lines 2965-2988): zero-initialise, record id and direct-write flag, and
for draws apply static must-fail flags and `UpdateTestsFailed`. -/
def buildInitialMod (flagsOf : Nat → Nat) (tfOccl : Nat → TestKind → Nat)
    (e : EventUsage) : PixelModification :=
  let clear := e.usage == ResourceUsage.Clear
  let directWrite := isDirectWrite e.usage
  let mod := { emptyPixelModification with
    eventId := e.eventId
    directShaderWrite := directWrite
    unboundPS := false }
  if !clear && !directWrite then
    let flags := flagsOf e.eventId
    (UpdateTestsFailed (hasEarlyFragments e.eventId) flags (tfOccl e.eventId)
        (applyStaticFlags flags mod)).1
  else mod

/-- History-building loop of lines 2958-2991: one entry per input event
that is a clear, a direct write, or a surviving draw, in input order. -/
def buildInitialHistory (occl : Nat → Nat) (flagsOf : Nat → Nat)
    (tfOccl : Nat → TestKind → Nat) (events : List EventUsage) : List PixelModification :=
  let drawEvents := gatherDrawEvents occl events
  events.filterMap fun e =>
    if drawEvents.contains e.eventId || e.usage == ResourceUsage.Clear ||
        isDirectWrite e.usage then
      some (buildInitialMod flagsOf tfOccl e)
    else none

/-- Raw single-pixel value as copied into the readback buffer
(`PixelHistoryValue`): color bytes before conversion, depth float bits,
int8 stencil. -/
structure PixelHistoryValue where
  color : Nat
  depth : Nat
  stencil : Int
  deriving DecidableEq, Repr

/-- Readback record of the modification-capture pass (`EventInfo`):
pre/post values plus the first stencil byte of each of the two stencil
copies, which are the fragment counts without / with shader discard. -/
structure EventInfo where
  premod : PixelHistoryValue
  postmod : PixelHistoryValue
  fragsNoDiscard : Nat
  fragsWithDiscard : Nat
  deriving DecidableEq, Repr

/-- Value conversion of lines 3015-3020: `FillInColor` (external
`ConvertComponents`, oracle `conv`) for the color, raw copy for depth and
stencil. -/
def fillInValue (conv : Nat → Nat) (v : PixelHistoryValue) : ModificationValue :=
  { col := conv v.color, depth := v.depth, stencil := v.stencil }

/-- Per-entry update of the expansion loop (lines 3014-3027): fill
pre/post values, stash the two fragment counts in the shader-out color
(`intValue[0]`/`intValue[1]` of the zeroed union, encoded here as
`frags + 2^32 * fragsClipped`), and temporarily store the
some-fragments-clipped boolean in `primitiveID`. -/
def expandEntry (convT : Nat → Nat) (ei : EventInfo) (mod : PixelModification) :
    PixelModification :=
  { mod with
    preMod := fillInValue convT ei.premod
    postMod := fillInValue convT ei.postmod
    shaderOut := { mod.shaderOut with
      col := ei.fragsNoDiscard + 4294967296 * ei.fragsWithDiscard }
    primitiveID := if ei.fragsWithDiscard < ei.fragsNoDiscard then 1 else 0 }

/-- Fragment-expansion loop of lines 3003-3044.  For each entry with
capture information (`evIdx`, the `GetEventIndex` oracle; `buf`, the
mapped `EventInfo` readback buffer) the entry is filled in and duplicated
into one entry per fragment with fragment indices `0..frags-1`; the loop
then skips the copies (`h += RDCMAX(1, frags)`).  Also accumulates
`eventsWithFrags` (events with `frags > 0`). -/
def expandHistory (evIdx : Nat → Option Nat) (buf : Nat → EventInfo) (convT : Nat → Nat) :
    List PixelModification → List PixelModification × List (Nat × Nat)
  | [] => ([], [])
  | mod :: rest =>
    let tail := expandHistory evIdx buf convT rest
    match evIdx mod.eventId with
    | none => (mod :: tail.1, tail.2)
    | some idx =>
      let ei := buf idx
      let frags := ei.fragsNoDiscard
      let mod1 := expandEntry convT ei mod
      let block :=
        if frags = 0 then [mod1]
        else (List.range frags).map fun f => { mod1 with fragIndex := f }
      (block ++ tail.1, (if frags > 0 then [(mod.eventId, frags)] else []) ++ tail.2)

/-- Readback record of the per-fragment decomposition pass
(`PerFragmentInfo`). -/
structure PerFragmentInfo where
  primitiveID : Int
  shaderOut : PixelHistoryValue
  postMod : PixelHistoryValue
  deriving DecidableEq, Repr

/-- First per-fragment loop (lines 3064-3080): overwrite the stashed
clipped flag with the fragment's primitive id from the decomposition
buffer `bp` (at `GetEventOffset` = `offsetOf` plus fragment index) and
collect the (event, primitive) pairs whose event had clipped
fragments. -/
def primIdPass (ewf : List (Nat × Nat)) (offsetOf : Nat → Nat) (bp : Nat → PerFragmentInfo) :
    List PixelModification → List PixelModification × List (Nat × Int)
  | [] => ([], [])
  | mod :: rest =>
    let tail := primIdPass ewf offsetOf bp rest
    if (ewf.lookup mod.eventId).isSome then
      let someFragsClipped := mod.primitiveID == 1
      let primId := (bp (offsetOf mod.eventId + mod.fragIndex)).primitiveID
      ({ mod with primitiveID := primId } :: tail.1,
        (if someFragsClipped then [(mod.eventId, primId)] else []) ++ tail.2)
    else (mod :: tail.1, tail.2)

/-- Embedding of
`VulkanPixelHistoryDiscardedFragmentsCallback::PrimitiveDiscarded`
(lines 2401-2407): false unless an occlusion query was issued for this
(event, primitive) pair, otherwise whether its result was zero
(`discardOccl` oracle). -/
def PrimitiveDiscarded (prims : List (Nat × Int)) (discardOccl : Nat → Int → Nat)
    (eid : Nat) (primId : Int) : Bool :=
  prims.contains (eid, primId) && discardOccl eid primId == 0

/-- Discard-confirmation loop (lines 3096-3098): overwrite
`shaderDiscarded` of every history entry from the discarded-fragments
pass results. -/
def discardPass (prims : List (Nat × Int)) (discardOccl : Nat → Int → Nat)
    (hist : List PixelModification) : List PixelModification :=
  hist.map fun mod =>
    { mod with
      shaderDiscarded := PrimitiveDiscarded prims discardOccl mod.eventId mod.primitiveID }

/-- Final value-fill loop (lines 3101-3132), carrying the previous
(updated) entry and the running `discardOffset`.  A discarded fragment
inherits the previous entry's post-modification value; otherwise the
shader-out value is filled from the decomposition buffer and, when the
next entry belongs to the same event, so is the post-modification color
and depth (the stencil keeps the event-level value). -/
def valueFillGo (ewf : List (Nat × Nat)) (offsetOf : Nat → Nat) (bp : Nat → PerFragmentInfo)
    (convT convS : Nat → Nat) :
    Option PixelModification → Nat → List PixelModification → List PixelModification
  | _, _, [] => []
  | prev, dOff0, mod :: rest =>
    let dOff := match prev with
      | some p => if mod.eventId ≠ p.eventId then 0 else dOff0
      | none => dOff0
    if (ewf.lookup mod.eventId).isSome then
      if mod.shaderDiscarded then
        let mod1 := match prev with
          | some p => { mod with postMod := p.postMod }
          | none => mod
        mod1 :: valueFillGo ewf offsetOf bp convT convS (some mod1) (dOff + 1) rest
      else
        let fi := bp (offsetOf mod.eventId + mod.fragIndex - dOff)
        let mod1 := { mod with
          shaderOut := { mod.shaderOut with
            col := convS fi.shaderOut.color
            depth := fi.shaderOut.depth } }
        let mod2 := match rest with
          | next :: _ =>
            if mod.eventId = next.eventId then
              { mod1 with postMod := { mod1.postMod with
                  col := convT fi.postMod.color
                  depth := fi.postMod.depth } }
            else mod1
          | [] => mod1
        mod2 :: valueFillGo ewf offsetOf bp convT convS (some mod2) dOff rest
    else mod :: valueFillGo ewf offsetOf bp convT convS (some mod) dOff rest

/-- Per-fragment phase of lines 3047-3133, run only when some event has
fragments. -/
def perFragmentPhase (ewf : List (Nat × Nat)) (offsetOf : Nat → Nat)
    (bp : Nat → PerFragmentInfo) (discardOccl : Nat → Int → Nat) (convT convS : Nat → Nat)
    (hist : List PixelModification) : List PixelModification :=
  if ewf.isEmpty then hist
  else
    let step1 := primIdPass ewf offsetOf bp hist
    let step2 :=
      if step1.2.length > 0 then discardPass step1.2 discardOccl step1.1 else step1.1
    valueFillGo ewf offsetOf bp convT convS none 0 step2

/-- Oracles standing for the external collaborators: GPU query results,
readback buffer contents and format conversion. -/
structure PixelHistoryOracles where
  occl : Nat → Nat
  flagsOf : Nat → Nat
  tfOccl : Nat → TestKind → Nat
  evIdx : Nat → Option Nat
  buf : Nat → EventInfo
  offsetOf : Nat → Nat
  bp : Nat → PerFragmentInfo
  discardOccl : Nat → Int → Nat
  convT : Nat → Nat
  convS : Nat → Nat

/-- History computation of `VulkanReplay::PixelHistory` after the early
exits: candidate filter, history building, fragment expansion and the
per-fragment phase. -/
def pixelHistoryCore (o : PixelHistoryOracles) (events : List EventUsage) :
    List PixelModification :=
  let hist0 := buildInitialHistory o.occl o.flagsOf o.tfOccl events
  let expanded := expandHistory o.evIdx o.buf o.convT hist0
  perFragmentPhase expanded.2 o.offsetOf o.bp o.discardOccl o.convT o.convS expanded.1

/-- GPU-side resource creations performed by `VulkanReplay::PixelHistory`
before any result is produced. -/
inductive GpuAction where
  | createOcclusionPool (size : Nat)
  | setupResources
  deriving DecidableEq, Repr

/-- Embedding of the entry of `VulkanReplay::PixelHistory`
(lines 2830-2956 plus the phases above): the early exits for missing API
support, an empty event list and an undefined target format return an
empty history before any GPU resource creation; otherwise the occlusion
pool (one query per event), the history resources and, when draw events
survive, the test-failure pool (`drawEvents.size() * 6` queries) are
created. -/
def PixelHistory (o : PixelHistoryOracles) (apiPixelHistory : Bool) (fmtUndefined : Bool)
    (events : List EventUsage) : List GpuAction × List PixelModification :=
  if !apiPixelHistory then ([], [])
  else if events.isEmpty then ([], [])
  else if fmtUndefined then ([], [])
  else
    let drawEvents := gatherDrawEvents o.occl events
    let acts := [GpuAction.createOcclusionPool events.length, GpuAction.setupResources] ++
      (if drawEvents.length > 0 then
        [GpuAction.createOcclusionPool (drawEvents.length * 6)]
      else [])
    (acts, pixelHistoryCore o events)

/-! Scissor narrowing (`VulkanPixelHistoryCallback::ScissorToPixel`,
lines 389-411).  Viewport coordinates are floats in the source; they are
modelled exactly as rationals, which preserves the comparisons and the
single addition `view.y + view.height`. -/

structure VkViewport where
  x : ℚ
  y : ℚ
  width : ℚ
  height : ℚ
  deriving DecidableEq, Repr

/-- Embedding of `ScissorToPixel`: the target pixel `(cx, cy)` of the
callback info against one viewport, producing the updated scissor. -/
def ScissorToPixel (cx cy : Nat) (view : VkViewport) : VkRect2D :=
  let fx : ℚ := cx
  let fy : ℚ := cy
  let yStart : ℚ := if view.height < 0 then view.y + view.height else view.y
  let yEnd : ℚ := if view.height < 0 then view.y else view.y + view.height
  if fx < view.x ∨ fy < yStart ∨ fx ≥ view.x + view.width ∨ fy ≥ yEnd then
    ⟨0, 0, 0, 0⟩
  else
    ⟨(cx : Int), (cy : Int), 1, 1⟩

/-- Modelled from the spec wording of the scissor-narrowing claim: the
target pixel lies inside the viewport's rectangle, where a negative
viewport height means the Y range is inverted
(`y_start = y + height`, `y_end = y`). -/
def pixelInsideViewport (cx cy : Nat) (view : VkViewport) : Prop :=
  let yStart : ℚ := if view.height < 0 then view.y + view.height else view.y
  let yEnd : ℚ := if view.height < 0 then view.y else view.y + view.height
  view.x ≤ (cx : ℚ) ∧ (cx : ℚ) < view.x + view.width ∧
    yStart ≤ (cy : ℚ) ∧ (cy : ℚ) < yEnd

instance (cx cy : Nat) (view : VkViewport) : Decidable (pixelInsideViewport cx cy view) := by
  unfold pixelInsideViewport
  exact inferInstance

/-! Shader side-effect stripper (`PixelHistoryShaderCache`,
lines 158-364).  SPIR-V instructions are abstracted to the shapes the
stripper distinguishes; a module is its entry points plus its functions'
instruction streams. -/

inductive SpvStorageClass where
  | Uniform
  | StorageBuffer
  | UniformConstant
  | Workgroup
  | Private
  | Function
  | Input
  | Output
  deriving DecidableEq, Repr

/-- Instruction shapes relevant to `StripShaderSideEffects`:
`storeOp` stands for `OpStore`/`OpCopyMemory`/`OpAtomicStore` with the
storage class of the written pointer, `atomicRMW` for the atomic
read-modify-write group that is replaced by `OpAtomicLoad`. -/
inductive SpvInstruction where
  | functionCall (callee : Nat)
  | storeOp (pointerStorageClass : SpvStorageClass)
  | imageWrite
  | atomicRMW
  | other
  deriving DecidableEq, Repr

structure SpvFunction where
  id : Nat
  body : List SpvInstruction
  deriving DecidableEq, Repr

structure SpvEntryPoint where
  name : String
  id : Nat
  deriving DecidableEq, Repr

structure SpvModule where
  entries : List SpvEntryPoint
  functions : List SpvFunction
  deriving DecidableEq, Repr

/-- Whether one instruction makes `StripShaderSideEffects` remove (or for
atomics, replace) it and set `modified` (lines 286-351): stores to
Uniform/StorageBuffer pointers, image writes, atomic read-modify-writes. -/
def removesInstruction : SpvInstruction → Bool
  | .storeOp sc => sc == SpvStorageClass.Uniform || sc == SpvStorageClass.StorageBuffer
  | .imageWrite => true
  | .atomicRMW => true
  | _ => false

/-- Body of the function with the given id (`editor.GetID` walk). -/
def functionBody (m : SpvModule) (id : Nat) : List SpvInstruction :=
  match m.functions.find? (fun f => f.id == id) with
  | some f => f.body
  | none => []

/-- Ordered insertion into the `std::set` work queue. -/
def insertSortedNat (c : Nat) : List Nat → List Nat
  | [] => [c]
  | x :: xs => if c < x then c :: x :: xs else if c = x then x :: xs else x :: insertSortedNat c xs

/-- One pass over a function body (lines 280-352): enqueue callees not
already queued or patched, and accumulate whether any instruction was
removed. -/
def patchFunctionBody (patched : List Nat) (body : List SpvInstruction)
    (queue : List Nat) (modified : Bool) : List Nat × Bool :=
  body.foldl
    (fun st i =>
      match i with
      | SpvInstruction.functionCall c =>
        if st.1.contains c || patched.contains c then st else (insertSortedNat c st.1, st.2)
      | _ => (st.1, st.2 || removesInstruction i))
    (queue, modified)

/-- Work-queue loop of `StripShaderSideEffects` (lines 265-353); the
queue is a `std::set` popped at `begin()`, so the smallest id is
processed first.  `fuel` bounds the iteration count; the loop pops one id
per iteration and every id is enqueued at most once. -/
def stripLoop (m : SpvModule) : Nat → List Nat → List Nat → Bool → Bool
  | 0, _, _, modified => modified
  | _ + 1, [], _, modified => modified
  | fuel + 1, funcId :: queue, patched, modified =>
    let patched1 := funcId :: patched
    let step := patchFunctionBody patched1 (functionBody m funcId) queue modified
    stripLoop m fuel step.1 patched1 step.2

/-- Upper bound on the total number of queue insertions: the entry point
plus one per call instruction in the module. -/
def stripFuel (m : SpvModule) : Nat :=
  1 + (m.functions.map (fun f => f.body.length)).sum

/-- Embedding of `StripShaderSideEffects` (lines 257-355): true iff some
instruction reachable from the entry point was removed. -/
def StripShaderSideEffects (m : SpvModule) (entryId : Nat) : Bool :=
  stripLoop m (stripFuel m) [entryId] [] false

/-- Embedding of `CreateShaderReplacement` (lines 220-252): find the
entry point by name; if stripping modified the shader, build a new module
(handle `some freshHandle`), otherwise `none` (VK_NULL_HANDLE).  A
missing entry point is the error path and also returns `none`. -/
def CreateShaderReplacement (m : SpvModule) (entryName : String) (freshHandle : Nat) :
    Option Nat :=
  match m.entries.find? (fun e => e.name == entryName) with
  | some entry => if StripShaderSideEffects m entry.id then some freshHandle else none
  | none => none

/-- State of `m_ShaderReplacements`: the cache keyed by
(shader id, entry point), plus a supply of fresh module handles. -/
structure ShaderCacheState where
  replacements : List ((Nat × String) × Option Nat)
  nextHandle : Nat
  deriving DecidableEq, Repr

/-- Embedding of `GetShaderWithoutSideEffects` (lines 206-217): return
the cached handle if the key was processed before, otherwise process the
shader (`info` is `GetShaderInfo`) and cache the result, including the
null result. -/
def GetShaderWithoutSideEffects (info : Nat → SpvModule) (st : ShaderCacheState)
    (shaderId : Nat) (entryPoint : String) : Option Nat × ShaderCacheState :=
  match st.replacements.lookup (shaderId, entryPoint) with
  | some h => (h, st)
  | none =>
    let h := CreateShaderReplacement (info shaderId) entryPoint st.nextHandle
    (h, { replacements := ((shaderId, entryPoint), h) :: st.replacements,
          nextHandle := if h.isSome then st.nextHandle + 1 else st.nextHandle })

/-- Whether `CreateShaderReplacement` removed at least one instruction
for this (module, entry point): the condition under which it builds a new
module. -/
def shaderWasModified (m : SpvModule) (entryPoint : String) : Bool :=
  match m.entries.find? (fun e => e.name == entryPoint) with
  | some entry => StripShaderSideEffects m entry.id
  | none => false

/-- Projection of the fields never written by UpdateTestsFailed. -/
def staticPart (m : PixelModification) :
    Nat × Bool × Bool × Nat × ModificationValue × ModificationValue × ModificationValue × Int :=
  (m.eventId, m.directShaderWrite, m.unboundPS, m.fragIndex, m.preMod, m.shaderOut, m.postMod,
    m.primitiveID)

/-- Total number of per-test occlusion queries issued by the
test-failure pass: the query index of each `ReplayDraw` is the running
total at issue time. -/
def totalTfQueries (flagsOf : Nat → Nat) (drawEvents : List Nat) : Nat :=
  (drawEvents.map fun e => (ReplayDrawWithTestsQueries (flagsOf e)).length).sum

/-- Shared trivial oracle assembly for concrete evaluations. -/
def zeroValue : PixelHistoryValue := ⟨0, 0, 0⟩

def trivialOracles : PixelHistoryOracles where
  occl := fun _ => 0
  flagsOf := fun _ => 0
  tfOccl := fun _ _ => 0
  evIdx := fun _ => none
  buf := fun _ => ⟨zeroValue, zeroValue, 0, 0⟩
  offsetOf := fun _ => 0
  bp := fun _ => ⟨0, zeroValue, zeroValue⟩
  discardOccl := fun _ _ => 0
  convT := fun c => c
  convS := fun c => c

/-- One-entry shader whose single function body is an image write. -/
def sideEffectModule : SpvModule :=
  ⟨[⟨"main", 1⟩], [⟨1, [SpvInstruction.imageWrite]⟩]⟩

/-- Event ids of a history, in order. -/
def eids (l : List PixelModification) : List Nat := l.map (·.eventId)

/-- Projection preserved by the primitive-id pass. -/
def projA (m : PixelModification) :
    Nat × Nat × ModificationValue × ModificationValue × Bool :=
  (m.eventId, m.fragIndex, m.preMod, m.postMod, m.shaderDiscarded)

/-- Projection preserved by the discard pass. -/
def projB (m : PixelModification) : Nat × Nat × ModificationValue × ModificationValue :=
  (m.eventId, m.fragIndex, m.preMod, m.postMod)

/-- Projection preserved by the value-fill pass. -/
def projC (m : PixelModification) : Nat × Nat × ModificationValue × Bool :=
  (m.eventId, m.fragIndex, m.preMod, m.shaderDiscarded)

/-- Pair projection used for ordering facts. -/
def projEF (m : PixelModification) : Nat × Nat := (m.eventId, m.fragIndex)

/-- Pair projection used for pre-modification facts. -/
def projPre (m : PixelModification) : Nat × ModificationValue := (m.eventId, m.preMod)

/-- Fields preserved by both `applyStaticFlags` and `UpdateTestsFailed`. -/
def corePart (m : PixelModification) :
    Nat × Bool × Nat × ModificationValue × ModificationValue × ModificationValue × Int :=
  (m.eventId, m.directShaderWrite, m.fragIndex, m.preMod, m.shaderOut, m.postMod, m.primitiveID)

/-- Adjacency relation of the expanded history: within an event the
fragment index increments, across events the id strictly increases and
the fragment index restarts at 0. -/
def histStep (a b : PixelModification) : Prop :=
  (a.eventId = b.eventId ∧ b.fragIndex = a.fragIndex + 1) ∨
    (a.eventId < b.eventId ∧ b.fragIndex = 0)

/-- `histStep` on the (eventId, fragIndex) projection. -/
def pairStep (p q : Nat × Nat) : Prop :=
  (p.1 = q.1 ∧ q.2 = p.2 + 1) ∨ (p.1 < q.1 ∧ q.2 = 0)

/-- Oracles for a single draw event 1 that produced two fragments: the
event-level capture reads pre-modification color 3 and post-modification
color 7, while the per-fragment decomposition reads post-modification
color 5 for the first fragment. -/
def oC2 : PixelHistoryOracles where
  occl := fun _ => 1
  flagsOf := fun _ => 0
  tfOccl := fun _ _ => 1
  evIdx := fun eid => if eid = 1 then some 0 else none
  buf := fun _ => ⟨⟨3, 0, 0⟩, ⟨7, 0, 0⟩, 2, 2⟩
  offsetOf := fun _ => 0
  bp := fun _ => ⟨0, ⟨9, 0, 0⟩, ⟨5, 0, 0⟩⟩
  discardOccl := fun _ _ => 0
  convT := fun c => c
  convS := fun c => c

theorem tfDepth_staticPart (e : Bool) (f : Nat) (o : TestKind → Nat) (s : TfState) :
    staticPart (tfDepth e f o s).1 = staticPart s.1 := by
  unfold tfDepth; dsimp only []; split_ifs <;> rfl

theorem tfStencil_staticPart (e : Bool) (f : Nat) (o : TestKind → Nat) (s : TfState) :
    staticPart (tfStencil e f o s).1 = staticPart s.1 := by
  unfold tfStencil; dsimp only []; split_ifs <;> (try rfl) <;> rw [tfDepth_staticPart] <;> rfl

theorem tfDepthBounds_staticPart (e : Bool) (f : Nat) (o : TestKind → Nat) (s : TfState) :
    staticPart (tfDepthBounds e f o s).1 = staticPart s.1 := by
  unfold tfDepthBounds; dsimp only []; split_ifs <;> (try rfl) <;> rw [tfStencil_staticPart] <;> rfl

theorem tfDiscard_staticPart (e : Bool) (f : Nat) (o : TestKind → Nat) (s : TfState) :
    staticPart (tfDiscard e f o s).1 = staticPart s.1 := by
  unfold tfDiscard; dsimp only []; split_ifs <;> (try rfl) <;> rw [tfDepthBounds_staticPart] <;> rfl

theorem tfSampleMask_staticPart (e : Bool) (f : Nat) (o : TestKind → Nat) (s : TfState) :
    staticPart (tfSampleMask e f o s).1 = staticPart s.1 := by
  unfold tfSampleMask; dsimp only []; split_ifs <;> (try rfl) <;> rw [tfDiscard_staticPart] <;> rfl

theorem tfScissor_staticPart (e : Bool) (f : Nat) (o : TestKind → Nat) (s : TfState) :
    staticPart (tfScissor e f o s).1 = staticPart s.1 := by
  unfold tfScissor; dsimp only []; split_ifs <;> (try rfl) <;> rw [tfSampleMask_staticPart] <;> rfl

theorem updateTestsFailed_staticPart (e : Bool) (f : Nat) (o : TestKind → Nat)
    (m : PixelModification) :
    staticPart (UpdateTestsFailed e f o m).1 = staticPart m := by
  unfold UpdateTestsFailed; dsimp only []; split_ifs <;> (try rfl) <;> rw [tfScissor_staticPart] <;> rfl

theorem hasFlag_iff {f bit : Nat} : hasFlag f bit = true ↔ f &&& bit ≠ 0 := by
  simp [hasFlag]

/-- A block guard `flags & mask == target` is false when a must-fail bit
inside the mask but outside the target is set. -/
theorem maskCond_false {f : Nat} (bit mask target : Nat) (h : f &&& bit ≠ 0)
    (hmask : mask &&& bit = bit) (ht : target &&& bit = 0) :
    (f &&& mask == target) = false := by
  apply beq_eq_false_iff_ne.mpr
  intro heq
  apply h
  have h2 : (f &&& mask) &&& bit = target &&& bit := by rw [heq]
  rwa [Nat.land_assoc, hmask, ht] at h2

theorem tfScissor_of_scissorClipped (e : Bool) (f : Nat) (o : TestKind → Nat) (s : TfState)
    (hc : s.1.scissorClipped = true)
    (hcond : (f &&& (TestEnabled_Scissor ||| TestMustPass_Scissor ||| TestMustFail_Scissor) ==
      TestEnabled_Scissor) = false) : tfScissor e f o s = s := by
  unfold tfScissor; simp [hcond, hc]

theorem tfSampleMask_of_sampleMasked (e : Bool) (f : Nat) (o : TestKind → Nat) (s : TfState)
    (hm : s.1.sampleMasked = true)
    (hcond : (f &&& (TestEnabled_SampleMask ||| TestMustFail_SampleMask) ==
      TestEnabled_SampleMask) = false) : tfSampleMask e f o s = s := by
  unfold tfSampleMask; simp [hcond, hm]

theorem tfScissor_sampleMasked (e : Bool) (f : Nat) (o : TestKind → Nat) (s : TfState)
    (hm : s.1.sampleMasked = true)
    (hcond : (f &&& (TestEnabled_SampleMask ||| TestMustFail_SampleMask) ==
      TestEnabled_SampleMask) = false) : (tfScissor e f o s).1.sampleMasked = true := by
  unfold tfScissor; dsimp only []
  split_ifs with h1 h2 h3
  · exact hm
  · rw [tfSampleMask_of_sampleMasked _ _ _ _ (by simpa using hm) hcond]; simpa using hm
  · exact hm
  · rw [tfSampleMask_of_sampleMasked _ _ _ _ hm hcond]; exact hm

theorem tfDepth_of_depthTestFailed (e : Bool) (f : Nat) (o : TestKind → Nat) (s : TfState)
    (hd : s.1.depthTestFailed = true)
    (hcond : (f &&& (TestEnabled_DepthTesting ||| TestMustFail_DepthTesting) ==
      TestEnabled_DepthTesting) = false) : tfDepth e f o s = s := by
  unfold tfDepth; simp [hcond, hd]

theorem tfStencil_depthTestFailed (e : Bool) (f : Nat) (o : TestKind → Nat) (s : TfState)
    (hd : s.1.depthTestFailed = true)
    (hcond : (f &&& (TestEnabled_DepthTesting ||| TestMustFail_DepthTesting) ==
      TestEnabled_DepthTesting) = false) : (tfStencil e f o s).1.depthTestFailed = true := by
  unfold tfStencil; dsimp only []
  split_ifs with h1 h2 h3
  · exact hd
  · rw [tfDepth_of_depthTestFailed _ _ _ _ (by simpa using hd) hcond]; simpa using hd
  · exact hd
  · rw [tfDepth_of_depthTestFailed _ _ _ _ hd hcond]; exact hd

theorem tfDepthBounds_depthTestFailed (e : Bool) (f : Nat) (o : TestKind → Nat) (s : TfState)
    (hd : s.1.depthTestFailed = true)
    (hcond : (f &&& (TestEnabled_DepthTesting ||| TestMustFail_DepthTesting) ==
      TestEnabled_DepthTesting) = false) : (tfDepthBounds e f o s).1.depthTestFailed = true := by
  unfold tfDepthBounds; dsimp only []
  split_ifs with h1 h2 h3
  · exact hd
  · exact tfStencil_depthTestFailed _ _ _ _ (by simpa using hd) hcond
  · exact hd
  · exact tfStencil_depthTestFailed _ _ _ _ hd hcond

theorem tfDiscard_depthTestFailed (e : Bool) (f : Nat) (o : TestKind → Nat) (s : TfState)
    (hd : s.1.depthTestFailed = true)
    (hcond : (f &&& (TestEnabled_DepthTesting ||| TestMustFail_DepthTesting) ==
      TestEnabled_DepthTesting) = false) : (tfDiscard e f o s).1.depthTestFailed = true := by
  unfold tfDiscard; dsimp only []
  split_ifs with h1 h2 h3
  · exact hd
  · exact tfDepthBounds_depthTestFailed _ _ _ _ (by simpa using hd) hcond
  · exact hd
  · exact tfDepthBounds_depthTestFailed _ _ _ _ hd hcond

theorem tfSampleMask_depthTestFailed (e : Bool) (f : Nat) (o : TestKind → Nat) (s : TfState)
    (hd : s.1.depthTestFailed = true)
    (hcond : (f &&& (TestEnabled_DepthTesting ||| TestMustFail_DepthTesting) ==
      TestEnabled_DepthTesting) = false) : (tfSampleMask e f o s).1.depthTestFailed = true := by
  unfold tfSampleMask; dsimp only []
  split_ifs with h1 h2 h3
  · exact hd
  · exact tfDiscard_depthTestFailed _ _ _ _ (by simpa using hd) hcond
  · exact hd
  · exact tfDiscard_depthTestFailed _ _ _ _ hd hcond

theorem tfScissor_depthTestFailed (e : Bool) (f : Nat) (o : TestKind → Nat) (s : TfState)
    (hd : s.1.depthTestFailed = true)
    (hcond : (f &&& (TestEnabled_DepthTesting ||| TestMustFail_DepthTesting) ==
      TestEnabled_DepthTesting) = false) : (tfScissor e f o s).1.depthTestFailed = true := by
  unfold tfScissor; dsimp only []
  split_ifs with h1 h2 h3
  · exact hd
  · exact tfSampleMask_depthTestFailed _ _ _ _ (by simpa using hd) hcond
  · exact hd
  · exact tfSampleMask_depthTestFailed _ _ _ _ hd hcond

theorem updateTestsFailed_backfaceCulled (e : Bool) (f : Nat) (o : TestKind → Nat)
    (m : PixelModification) (hb : m.backfaceCulled = true)
    (hcond : (f &&& (TestEnabled_Culling ||| TestMustFail_Culling) ==
      TestEnabled_Culling) = false) :
    (UpdateTestsFailed e f o m).1.backfaceCulled = true := by
  unfold UpdateTestsFailed; simp [hcond, hb]

theorem updateTestsFailed_scissorClipped (e : Bool) (f : Nat) (o : TestKind → Nat)
    (m : PixelModification) (hc : m.scissorClipped = true)
    (hcond : (f &&& (TestEnabled_Scissor ||| TestMustPass_Scissor ||| TestMustFail_Scissor) ==
      TestEnabled_Scissor) = false) :
    (UpdateTestsFailed e f o m).1.scissorClipped = true := by
  unfold UpdateTestsFailed; dsimp only []
  split_ifs with h1 h2 h3
  · exact hc
  · rw [tfScissor_of_scissorClipped _ _ _ _ (by simpa using hc) hcond]; simpa using hc
  · exact hc
  · rw [tfScissor_of_scissorClipped _ _ _ _ hc hcond]; exact hc

theorem updateTestsFailed_sampleMasked (e : Bool) (f : Nat) (o : TestKind → Nat)
    (m : PixelModification) (hm : m.sampleMasked = true)
    (hcond : (f &&& (TestEnabled_SampleMask ||| TestMustFail_SampleMask) ==
      TestEnabled_SampleMask) = false) :
    (UpdateTestsFailed e f o m).1.sampleMasked = true := by
  unfold UpdateTestsFailed; dsimp only []
  split_ifs with h1 h2 h3
  · exact hm
  · exact tfScissor_sampleMasked _ _ _ _ (by simpa using hm) hcond
  · exact hm
  · exact tfScissor_sampleMasked _ _ _ _ hm hcond

theorem updateTestsFailed_depthTestFailed (e : Bool) (f : Nat) (o : TestKind → Nat)
    (m : PixelModification) (hd : m.depthTestFailed = true)
    (hcond : (f &&& (TestEnabled_DepthTesting ||| TestMustFail_DepthTesting) ==
      TestEnabled_DepthTesting) = false) :
    (UpdateTestsFailed e f o m).1.depthTestFailed = true := by
  unfold UpdateTestsFailed; dsimp only []
  split_ifs with h1 h2 h3
  · exact hd
  · exact tfScissor_depthTestFailed _ _ _ _ (by simpa using hd) hcond
  · exact hd
  · exact tfScissor_depthTestFailed _ _ _ _ hd hcond

theorem applyStaticFlags_backfaceCulled (flags : Nat) (m : PixelModification)
    (h : hasFlag flags TestMustFail_Culling = true) :
    (applyStaticFlags flags m).backfaceCulled = true := by
  unfold applyStaticFlags; dsimp only []; rw [if_pos h]; split_ifs <;> rfl

theorem applyStaticFlags_scissorClipped (flags : Nat) (m : PixelModification)
    (h : hasFlag flags TestMustFail_Scissor = true) :
    (applyStaticFlags flags m).scissorClipped = true := by
  unfold applyStaticFlags; dsimp only []
  split_ifs <;> first | rfl | exact absurd h (by simp_all)

theorem applyStaticFlags_sampleMasked (flags : Nat) (m : PixelModification)
    (h : hasFlag flags TestMustFail_SampleMask = true) :
    (applyStaticFlags flags m).sampleMasked = true := by
  unfold applyStaticFlags; dsimp only []
  split_ifs <;> first | rfl | exact absurd h (by simp_all)

theorem applyStaticFlags_depthTestFailed (flags : Nat) (m : PixelModification)
    (h : hasFlag flags TestMustFail_DepthTesting = true) :
    (applyStaticFlags flags m).depthTestFailed = true := by
  unfold applyStaticFlags; dsimp only []
  split_ifs <;> first | rfl | exact absurd h (by simp_all)

theorem mem_queryIf {t' : TestKind} {b : Bool} {t : TestKind} :
    t' ∈ queryIf b t ↔ b = true ∧ t' = t := by
  unfold queryIf; split <;> simp_all

theorem rdwtq_culling_mustFail (f : Nat) (h : hasFlag f TestMustFail_Culling = true) :
    ReplayDrawWithTestsQueries f = [] := by
  unfold ReplayDrawWithTestsQueries; rw [if_pos h]

theorem testOrder_mem_cullQ {f : Nat} {t : TestKind} (ht : t ∈ cullQ f) : testOrder t = 0 := by
  rw [(mem_queryIf.mp ht).2]; rfl

theorem testOrder_mem_scisQ {f : Nat} {t : TestKind} (ht : t ∈ scisQ f) : testOrder t = 1 := by
  rw [(mem_queryIf.mp ht).2]; rfl

theorem testOrder_mem_maskQ {f : Nat} {t : TestKind} (ht : t ∈ maskQ f) : testOrder t = 2 := by
  rw [(mem_queryIf.mp ht).2]; rfl

theorem testOrder_mem_boundsQ {f : Nat} {t : TestKind} (ht : t ∈ boundsQ f) : testOrder t = 3 := by
  rw [(mem_queryIf.mp ht).2]; rfl

theorem testOrder_mem_stencilQ {f : Nat} {t : TestKind} (ht : t ∈ stencilQ f) :
    testOrder t = 4 := by
  rw [(mem_queryIf.mp ht).2]; rfl

/-- Orders of tests in the four-block prefix issued before the stencil
must-fail cut. -/
theorem testOrder_mem_prefix4 {f : Nat} {t : TestKind}
    (ht : t ∈ cullQ f ++ scisQ f ++ maskQ f ++ boundsQ f) : testOrder t ≤ 3 := by
  rcases List.mem_append.mp ht with h4 | h4
  · rcases List.mem_append.mp h4 with h3 | h3
    · rcases List.mem_append.mp h3 with h2 | h2
      · have := testOrder_mem_cullQ h2; omega
      · have := testOrder_mem_scisQ h2; omega
    · have := testOrder_mem_maskQ h3; omega
  · have := testOrder_mem_boundsQ h4; omega

theorem testOrder_mem_prefix5 {f : Nat} {t : TestKind}
    (ht : t ∈ cullQ f ++ scisQ f ++ maskQ f ++ boundsQ f ++ stencilQ f) : testOrder t ≤ 4 := by
  rcases List.mem_append.mp ht with h5 | h5
  · have h6 := testOrder_mem_prefix4 h5
    omega
  · have := testOrder_mem_stencilQ h5; omega

theorem rdwtq_scissor_mustFail (f : Nat) (h : hasFlag f TestMustFail_Scissor = true) :
    ∀ t ∈ ReplayDrawWithTestsQueries f, testOrder t < testOrder TestKind.scissor := by
  intro t ht
  unfold ReplayDrawWithTestsQueries at ht
  split_ifs at ht with h1 h2 h3 h4 h5
  · simp at ht
  · rw [testOrder_mem_cullQ ht]; decide
  all_goals exact absurd h (by assumption)

theorem rdwtq_sampleMask_mustFail (f : Nat) (h : hasFlag f TestMustFail_SampleMask = true) :
    ∀ t ∈ ReplayDrawWithTestsQueries f, testOrder t < testOrder TestKind.sampleMask := by
  intro t ht
  unfold ReplayDrawWithTestsQueries at ht
  split_ifs at ht with h1 h2 h3 h4 h5
  · simp at ht
  · rw [testOrder_mem_cullQ ht]; decide
  · rcases List.mem_append.mp ht with h0 | h0
    · rw [testOrder_mem_cullQ h0]; decide
    · rw [testOrder_mem_scisQ h0]; decide
  all_goals exact absurd h (by assumption)

theorem rdwtq_stencil_mustFail (f : Nat) (h : hasFlag f TestMustFail_StencilTesting = true) :
    ∀ t ∈ ReplayDrawWithTestsQueries f, testOrder t < testOrder TestKind.stencil := by
  intro t ht
  unfold ReplayDrawWithTestsQueries at ht
  split_ifs at ht with h1 h2 h3 h4 h5
  · simp at ht
  · rw [testOrder_mem_cullQ ht]; decide
  · rcases List.mem_append.mp ht with h0 | h0
    · rw [testOrder_mem_cullQ h0]; decide
    · rw [testOrder_mem_scisQ h0]; decide
  · have := testOrder_mem_prefix4 ht
    show testOrder t < 4
    omega
  all_goals exact absurd h (by assumption)

theorem rdwtq_depth_mustFail (f : Nat) (h : hasFlag f TestMustFail_DepthTesting = true) :
    ∀ t ∈ ReplayDrawWithTestsQueries f, testOrder t < testOrder TestKind.depth := by
  intro t ht
  unfold ReplayDrawWithTestsQueries at ht
  split_ifs at ht with h1 h2 h3 h4 h5
  · simp at ht
  · rw [testOrder_mem_cullQ ht]; decide
  · rcases List.mem_append.mp ht with h0 | h0
    · rw [testOrder_mem_cullQ h0]; decide
    · rw [testOrder_mem_scisQ h0]; decide
  · have := testOrder_mem_prefix4 ht
    show testOrder t < 5
    omega
  · have := testOrder_mem_prefix5 ht
    show testOrder t < 5
    omega
  all_goals exact absurd h (by assumption)

theorem hasFlag_two_pow (f i : Nat) : hasFlag f (2 ^ i) = f.testBit i := by
  unfold hasFlag
  rw [Nat.and_two_pow]
  cases h : f.testBit i <;> simp [Nat.pow_pos, Nat.pos_iff_ne_zero]

theorem cullingFlags_testBit_one (p : PipelineInfo) : (cullingFlags p).testBit 1 = false := by
  unfold cullingFlags
  rw [Nat.testBit_lor]
  split_ifs <;> decide

theorem depthStencilFlags_testBit_one (p : PipelineInfo) :
    (depthStencilFlags p).testBit 1 = false := by
  unfold depthStencilFlags
  rw [Nat.testBit_lor, Nat.testBit_lor]
  split_ifs <;> simp <;> decide

theorem scissorFlags_testBit_one (x y : Nat) (p : PipelineInfo) (st : RenderState) :
    (scissorFlags x y p st).testBit 1 = false := by
  unfold scissorFlags
  rw [Nat.testBit_lor]
  split_ifs <;> decide

theorem blendingFlags_testBit_one (ib : Bool) (p : PipelineInfo) :
    (blendingFlags ib p).testBit 1 = false := by
  unfold blendingFlags
  split
  · split_ifs <;> decide
  · split
    · decide
    · split_ifs <;> decide

theorem sampleFlags_testBit_one (sm : Nat) (p : PipelineInfo) :
    (sampleFlags sm p).testBit 1 = false := by
  unfold sampleFlags
  rw [Nat.testBit_lor]
  split_ifs <;> decide

/-- `CalculateEventFlags` never sets `TestEnabled_Scissor`. -/
theorem calculateEventFlags_no_scissor_enabled (ib : Bool) (x y sm : Nat) (p : PipelineInfo)
    (st : RenderState) :
    hasFlag (CalculateEventFlags ib x y sm p st) TestEnabled_Scissor = false := by
  have h2 : TestEnabled_Scissor = 2 ^ 1 := rfl
  rw [h2, hasFlag_two_pow]
  unfold CalculateEventFlags
  simp only [Nat.testBit_lor, cullingFlags_testBit_one, depthStencilFlags_testBit_one,
    scissorFlags_testBit_one, blendingFlags_testBit_one, sampleFlags_testBit_one, Bool.false_or,
    Bool.or_false]
  split_ifs <;> decide

theorem scisQ_eq_nil (f : Nat) (h : hasFlag f TestEnabled_Scissor = false) : scisQ f = [] := by
  have hof : f &&& TestEnabled_Scissor = 0 := by
    simpa [hasFlag] using h
  have hcond : (f &&& (TestEnabled_Scissor ||| TestMustPass_Scissor) ==
      TestEnabled_Scissor) = false := by
    apply beq_eq_false_iff_ne.mpr
    intro heq
    have h2 : (f &&& (TestEnabled_Scissor ||| TestMustPass_Scissor)) &&& TestEnabled_Scissor =
        TestEnabled_Scissor &&& TestEnabled_Scissor := by rw [heq]
    rw [Nat.land_assoc] at h2
    have h3 : (TestEnabled_Scissor ||| TestMustPass_Scissor) &&& TestEnabled_Scissor =
        TestEnabled_Scissor := by decide
    rw [h3, hof] at h2
    exact absurd h2.symm (by decide)
  unfold scisQ queryIf
  rw [hcond]
  rfl

theorem queryIf_length_le (b : Bool) (t : TestKind) : (queryIf b t).length ≤ 1 := by
  unfold queryIf; split <;> simp

/-- With `TestEnabled_Scissor` unset, at most 6 per-test queries are
issued for one draw. -/
theorem replayDrawWithTestsQueries_length_le (f : Nat)
    (h : hasFlag f TestEnabled_Scissor = false) :
    (ReplayDrawWithTestsQueries f).length ≤ 6 := by
  have hs := scisQ_eq_nil f h
  have h1 := queryIf_length_le (hasFlag f TestEnabled_Culling) TestKind.culling
  have h3 := queryIf_length_le (hasFlag f TestEnabled_SampleMask) TestKind.sampleMask
  have h4 := queryIf_length_le (hasFlag f TestEnabled_DepthBounds) TestKind.depthBounds
  have h5 := queryIf_length_le (hasFlag f TestEnabled_StencilTesting) TestKind.stencil
  have h6 := queryIf_length_le (hasFlag f TestEnabled_DepthTesting) TestKind.depth
  have h7 := queryIf_length_le (hasFlag f TestEnabled_FragmentDiscard) TestKind.discard
  unfold ReplayDrawWithTestsQueries
  unfold cullQ maskQ boundsQ stencilQ depthQ discardQ
  split_ifs <;> simp [hs, List.length_append] <;> omega

/-- The scissor test never gets an isolated query when
`TestEnabled_Scissor` is unset. -/
theorem scissor_not_in_queries (f : Nat) (h : hasFlag f TestEnabled_Scissor = false) :
    TestKind.scissor ∉ ReplayDrawWithTestsQueries f := by
  have hs := scisQ_eq_nil f h
  intro ht
  unfold ReplayDrawWithTestsQueries at ht
  split_ifs at ht <;>
    simp [hs, cullQ, maskQ, boundsQ, stencilQ, depthQ, discardQ, mem_queryIf] at ht

theorem totalTfQueries_le (flagsOf : Nat → Nat) (drawEvents : List Nat)
    (h : ∀ e ∈ drawEvents, hasFlag (flagsOf e) TestEnabled_Scissor = false) :
    totalTfQueries flagsOf drawEvents ≤ 6 * drawEvents.length := by
  induction drawEvents with
  | nil => simp [totalTfQueries]
  | cons a l ih =>
    have ha := replayDrawWithTestsQueries_length_le (flagsOf a) (h a (by simp))
    have hl := ih (fun e he => h e (by simp [he]))
    simp only [totalTfQueries, List.map_cons, List.sum_cons, List.length_cons] at *
    omega

/-- `CalculateEventFlags` sets `TestEnabled_SampleMask` unconditionally. -/
theorem calculateEventFlags_sampleMask_set (ib : Bool) (x y sm : Nat) (p : PipelineInfo)
    (st : RenderState) :
    hasFlag (CalculateEventFlags ib x y sm p st) TestEnabled_SampleMask = true := by
  have h2 : TestEnabled_SampleMask = 2 ^ 2 := rfl
  rw [h2, hasFlag_two_pow]
  unfold CalculateEventFlags sampleFlags
  simp only [Nat.testBit_lor, Bool.or_eq_true]
  exact Or.inl (Or.inr (Or.inl (by decide)))

/-- `CalculateEventFlags` sets `TestEnabled_FragmentDiscard` unconditionally. -/
theorem calculateEventFlags_discard_set (ib : Bool) (x y sm : Nat) (p : PipelineInfo)
    (st : RenderState) :
    hasFlag (CalculateEventFlags ib x y sm p st) TestEnabled_FragmentDiscard = true := by
  have h2 : TestEnabled_FragmentDiscard = 2 ^ 6 := rfl
  rw [h2, hasFlag_two_pow]
  unfold CalculateEventFlags
  simp only [Nat.testBit_lor, Bool.or_eq_true]
  exact Or.inr (by decide)

/-- When the sample-mask test is flagged enabled, its isolated replay is
issued exactly when no must-fail short-circuit fires at or before its
position. -/
theorem sampleMask_query_iff (f : Nat) (hsm : hasFlag f TestEnabled_SampleMask = true) :
    (TestKind.sampleMask ∈ ReplayDrawWithTestsQueries f ↔
      hasFlag f TestMustFail_Culling = false ∧ hasFlag f TestMustFail_Scissor = false ∧
        hasFlag f TestMustFail_SampleMask = false) := by
  unfold ReplayDrawWithTestsQueries
  split_ifs with h1 h2 h3 h4 h5 <;>
    simp_all [cullQ, scisQ, maskQ, boundsQ, stencilQ, depthQ, discardQ, mem_queryIf]

/-- When the shader-discard test is flagged enabled, its isolated replay
is issued exactly when no must-fail short-circuit fires at all. -/
theorem discard_query_iff (f : Nat) (hfd : hasFlag f TestEnabled_FragmentDiscard = true) :
    (TestKind.discard ∈ ReplayDrawWithTestsQueries f ↔
      hasFlag f TestMustFail_Culling = false ∧ hasFlag f TestMustFail_Scissor = false ∧
        hasFlag f TestMustFail_SampleMask = false ∧
        hasFlag f TestMustFail_StencilTesting = false ∧
        hasFlag f TestMustFail_DepthTesting = false) := by
  unfold ReplayDrawWithTestsQueries
  split_ifs with h1 h2 h3 h4 h5 <;>
    simp_all [cullQ, scisQ, maskQ, boundsQ, stencilQ, depthQ, discardQ, mem_queryIf]

/-- C10: with an empty candidate event list or an undefined target image
format, `PixelHistory` returns an empty history and performs no GPU
resource creation (no query pool, no history resources). -/
theorem pixelHistory_early_exit (o : PixelHistoryOracles) (api fmtUndefined : Bool)
    (events : List EventUsage) (h : events = [] ∨ fmtUndefined = true) :
    PixelHistory o api fmtUndefined events = ([], []) := by
  rcases h with h | h
  · subst h
    unfold PixelHistory
    split_ifs <;> simp_all
  · subst h
    unfold PixelHistory
    split_ifs <;> simp_all

/-- Witness for the C10 theorem at a concrete input. -/
theorem pixelHistory_early_exit_witness :
    PixelHistory trivialOracles true true [⟨7, ResourceUsage.Clear⟩] = ([], []) :=
  pixelHistory_early_exit trivialOracles true true [⟨7, ResourceUsage.Clear⟩] (Or.inr rfl)

/-- C5: `GetShaderWithoutSideEffects` returns a newly built module
(non-null handle) iff stripping removed at least one side-effecting
instruction; a repeated call with the same (shader, entry point) key
returns the cached result and leaves the cache unchanged. -/
theorem getShaderWithoutSideEffects_spec (info : Nat → SpvModule) (st : ShaderCacheState)
    (shaderId : Nat) (entryPoint : String) :
    (st.replacements.lookup (shaderId, entryPoint) = none →
      (GetShaderWithoutSideEffects info st shaderId entryPoint).1.isSome =
        shaderWasModified (info shaderId) entryPoint) ∧
    GetShaderWithoutSideEffects info
        (GetShaderWithoutSideEffects info st shaderId entryPoint).2 shaderId entryPoint =
      GetShaderWithoutSideEffects info st shaderId entryPoint := by
  constructor
  · intro hnone
    unfold GetShaderWithoutSideEffects
    rw [hnone]
    unfold CreateShaderReplacement shaderWasModified
    cases h : (info shaderId).entries.find? (fun e => e.name == entryPoint) with
    | none => simp
    | some entry =>
      cases hb : StripShaderSideEffects (info shaderId) entry.id <;> simp [hb]
  · cases h : st.replacements.lookup (shaderId, entryPoint) with
    | some v =>
      have h1 : GetShaderWithoutSideEffects info st shaderId entryPoint = (v, st) := by
        unfold GetShaderWithoutSideEffects; rw [h]
      rw [h1]
      unfold GetShaderWithoutSideEffects; rw [h]
    | none =>
      have h1 : GetShaderWithoutSideEffects info st shaderId entryPoint =
          (CreateShaderReplacement (info shaderId) entryPoint st.nextHandle,
            ⟨((shaderId, entryPoint),
                CreateShaderReplacement (info shaderId) entryPoint st.nextHandle) ::
                st.replacements,
              if (CreateShaderReplacement (info shaderId) entryPoint st.nextHandle).isSome then
                st.nextHandle + 1
              else st.nextHandle⟩) := by
        unfold GetShaderWithoutSideEffects; rw [h]
      rw [h1]
      unfold GetShaderWithoutSideEffects
      simp [List.lookup]

/-- Witness for the C5 theorem: an empty cache and a shader with one
image write; the first call builds a module and the second call is
cached. -/
theorem getShaderWithoutSideEffects_spec_witness :
    (GetShaderWithoutSideEffects (fun _ => sideEffectModule) ⟨[], 0⟩ 1 "main").1.isSome =
      shaderWasModified sideEffectModule "main" ∧
    shaderWasModified sideEffectModule "main" = true :=
  ⟨(getShaderWithoutSideEffects_spec (fun _ => sideEffectModule) ⟨[], 0⟩ 1 "main").1 rfl,
    by decide⟩

/-- C6: `ScissorToPixel` yields the zero-area scissor exactly when the
target pixel lies outside the viewport rectangle (negative height
inverting the Y range), and otherwise the 1x1 scissor at the pixel. -/
theorem scissorToPixel_spec (cx cy : Nat) (view : VkViewport) :
    (ScissorToPixel cx cy view = ⟨0, 0, 0, 0⟩ ↔ ¬ pixelInsideViewport cx cy view) ∧
    (pixelInsideViewport cx cy view →
      ScissorToPixel cx cy view = ⟨(cx : Int), (cy : Int), 1, 1⟩) := by
  have hcond : ¬ pixelInsideViewport cx cy view ↔
      ((cx : ℚ) < view.x ∨
        (cy : ℚ) < (if view.height < 0 then view.y + view.height else view.y) ∨
        (cx : ℚ) ≥ view.x + view.width ∨
        (cy : ℚ) ≥ (if view.height < 0 then view.y else view.y + view.height)) := by
    unfold pixelInsideViewport
    simp only [not_and_or, not_le, not_lt, ge_iff_le]
    tauto
  by_cases hc : ((cx : ℚ) < view.x ∨
      (cy : ℚ) < (if view.height < 0 then view.y + view.height else view.y) ∨
      (cx : ℚ) ≥ view.x + view.width ∨
      (cy : ℚ) ≥ (if view.height < 0 then view.y else view.y + view.height))
  · have h0 : ScissorToPixel cx cy view = ⟨0, 0, 0, 0⟩ := if_pos hc
    exact ⟨iff_of_true h0 (hcond.mpr hc), fun hin => absurd hin (hcond.mpr hc)⟩
  · have h1 : ScissorToPixel cx cy view = ⟨(cx : Int), (cy : Int), 1, 1⟩ := if_neg hc
    exact ⟨iff_of_false (by rw [h1]; simp) (fun hni => hc (hcond.mp hni)), fun _ => h1⟩

/-- Witness for the C6 theorem: pixel (2,3) inside the viewport
(0,0,4,4) yields the 1x1 scissor at (2,3). -/
theorem scissorToPixel_spec_witness :
    pixelInsideViewport 2 3 ⟨0, 0, 4, 4⟩ ∧
    ScissorToPixel 2 3 ⟨0, 0, 4, 4⟩ = ⟨2, 3, 1, 1⟩ := by
  have hin : pixelInsideViewport 2 3 ⟨0, 0, 4, 4⟩ := by
    unfold pixelInsideViewport
    norm_num
  exact ⟨hin, (scissorToPixel_spec 2 3 ⟨0, 0, 4, 4⟩).2 hin⟩

theorem tfDepth_trace_false (f : Nat) (o : TestKind → Nat) (s : TfState) :
    ∃ t, (tfDepth false f o s).2 = s.2 ++ t ∧ t.Sublist [TestKind.depth] := by
  unfold tfDepth
  simp only [Bool.false_eq_true, if_false, ite_false]
  split_ifs <;>
    first
      | exact ⟨[TestKind.depth], rfl, by decide⟩
      | exact ⟨[], by simp, by decide⟩

theorem tfStencil_trace_false (f : Nat) (o : TestKind → Nat) (s : TfState) :
    ∃ t, (tfStencil false f o s).2 = s.2 ++ t ∧
      t.Sublist [TestKind.stencil, TestKind.depth] := by
  unfold tfStencil; dsimp only []
  split_ifs with h1 h2 h3
  · exact ⟨[TestKind.stencil], rfl, by decide⟩
  · obtain ⟨t, ht, hs⟩ := tfDepth_trace_false f o
      ({ s.1 with stencilTestFailed := o TestKind.stencil == 0 }, s.2 ++ [TestKind.stencil])
    refine ⟨[TestKind.stencil] ++ t, by simpa using ht, ?_⟩
    show List.Sublist ([TestKind.stencil] ++ t) ([TestKind.stencil] ++ [TestKind.depth])
    exact List.Sublist.append (by decide) hs
  · exact ⟨[], by simp, by decide⟩
  · obtain ⟨t, ht, hs⟩ := tfDepth_trace_false f o s
    exact ⟨t, ht, hs.cons TestKind.stencil⟩

theorem tfDepthBounds_trace_false (f : Nat) (o : TestKind → Nat) (s : TfState) :
    ∃ t, (tfDepthBounds false f o s).2 = s.2 ++ t ∧
      t.Sublist [TestKind.depthBounds, TestKind.stencil, TestKind.depth] := by
  unfold tfDepthBounds; dsimp only []
  split_ifs with h1 h2 h3
  · exact ⟨[TestKind.depthBounds], rfl, by decide⟩
  · obtain ⟨t, ht, hs⟩ := tfStencil_trace_false f o
      ({ s.1 with depthClipped := o TestKind.depthBounds == 0 }, s.2 ++ [TestKind.depthBounds])
    refine ⟨[TestKind.depthBounds] ++ t, by simpa using ht, ?_⟩
    show List.Sublist ([TestKind.depthBounds] ++ t)
      ([TestKind.depthBounds] ++ [TestKind.stencil, TestKind.depth])
    exact List.Sublist.append (by decide) hs
  · exact ⟨[], by simp, by decide⟩
  · obtain ⟨t, ht, hs⟩ := tfStencil_trace_false f o s
    exact ⟨t, ht, hs.cons TestKind.depthBounds⟩

theorem tfDiscard_trace_false (f : Nat) (o : TestKind → Nat) (s : TfState) :
    ∃ t, (tfDiscard false f o s).2 = s.2 ++ t ∧
      t.Sublist [TestKind.discard, TestKind.depthBounds, TestKind.stencil, TestKind.depth] := by
  unfold tfDiscard
  simp only [Bool.not_false, Bool.true_and, if_true, ite_true]
  split_ifs with h1
  · exact ⟨[TestKind.discard], rfl, by decide⟩
  · obtain ⟨t, ht, hs⟩ := tfDepthBounds_trace_false f o
      ({ s.1 with shaderDiscarded := o TestKind.discard == 0 }, s.2 ++ [TestKind.discard])
    refine ⟨[TestKind.discard] ++ t, by simpa using ht, ?_⟩
    show List.Sublist ([TestKind.discard] ++ t)
      ([TestKind.discard] ++ [TestKind.depthBounds, TestKind.stencil, TestKind.depth])
    exact List.Sublist.append (by decide) hs

theorem tfSampleMask_trace_false (f : Nat) (o : TestKind → Nat) (s : TfState) :
    ∃ t, (tfSampleMask false f o s).2 = s.2 ++ t ∧
      t.Sublist [TestKind.sampleMask, TestKind.discard, TestKind.depthBounds, TestKind.stencil,
        TestKind.depth] := by
  unfold tfSampleMask; dsimp only []
  split_ifs with h1 h2 h3
  · exact ⟨[TestKind.sampleMask], rfl, by decide⟩
  · obtain ⟨t, ht, hs⟩ := tfDiscard_trace_false f o
      ({ s.1 with sampleMasked := o TestKind.sampleMask == 0 }, s.2 ++ [TestKind.sampleMask])
    refine ⟨[TestKind.sampleMask] ++ t, by simpa using ht, ?_⟩
    show List.Sublist ([TestKind.sampleMask] ++ t)
      ([TestKind.sampleMask] ++
        [TestKind.discard, TestKind.depthBounds, TestKind.stencil, TestKind.depth])
    exact List.Sublist.append (by decide) hs
  · exact ⟨[], by simp, by decide⟩
  · obtain ⟨t, ht, hs⟩ := tfDiscard_trace_false f o s
    exact ⟨t, ht, hs.cons TestKind.sampleMask⟩

theorem tfScissor_trace_false (f : Nat) (o : TestKind → Nat) (s : TfState) :
    ∃ t, (tfScissor false f o s).2 = s.2 ++ t ∧
      t.Sublist [TestKind.scissor, TestKind.sampleMask, TestKind.discard, TestKind.depthBounds,
        TestKind.stencil, TestKind.depth] := by
  unfold tfScissor; dsimp only []
  split_ifs with h1 h2 h3
  · exact ⟨[TestKind.scissor], rfl, by decide⟩
  · obtain ⟨t, ht, hs⟩ := tfSampleMask_trace_false f o
      ({ s.1 with scissorClipped := o TestKind.scissor == 0 }, s.2 ++ [TestKind.scissor])
    refine ⟨[TestKind.scissor] ++ t, by simpa using ht, ?_⟩
    show List.Sublist ([TestKind.scissor] ++ t)
      ([TestKind.scissor] ++
        [TestKind.sampleMask, TestKind.discard, TestKind.depthBounds, TestKind.stencil,
          TestKind.depth])
    exact List.Sublist.append (by decide) hs
  · exact ⟨[], by simp, by decide⟩
  · obtain ⟨t, ht, hs⟩ := tfSampleMask_trace_false f o s
    exact ⟨t, ht, hs.cons TestKind.scissor⟩

/-- With early fragment tests off, the occlusion results are read in the
default order: culling, scissor, sample mask, shader discard, depth
bounds, stencil, depth. -/
theorem updateTestsFailed_trace_false (f : Nat) (o : TestKind → Nat) (m : PixelModification) :
    ((UpdateTestsFailed false f o m).2).Sublist
      [TestKind.culling, TestKind.scissor, TestKind.sampleMask, TestKind.discard,
        TestKind.depthBounds, TestKind.stencil, TestKind.depth] := by
  unfold UpdateTestsFailed; dsimp only []
  split_ifs with h1 h2 h3
  · show List.Sublist [TestKind.culling]
      [TestKind.culling, TestKind.scissor, TestKind.sampleMask, TestKind.discard,
        TestKind.depthBounds, TestKind.stencil, TestKind.depth]
    decide
  · obtain ⟨t, ht, hs⟩ := tfScissor_trace_false f o
      ({ m with backfaceCulled := o TestKind.culling == 0 }, [TestKind.culling])
    rw [ht]
    show List.Sublist ([TestKind.culling] ++ t)
      ([TestKind.culling] ++
        [TestKind.scissor, TestKind.sampleMask, TestKind.discard, TestKind.depthBounds,
          TestKind.stencil, TestKind.depth])
    exact List.Sublist.append (by decide) hs
  · show List.Sublist ([] : List TestKind)
      [TestKind.culling, TestKind.scissor, TestKind.sampleMask, TestKind.discard,
        TestKind.depthBounds, TestKind.stencil, TestKind.depth]
    decide
  · obtain ⟨t, ht, hs⟩ := tfScissor_trace_false f o (m, [])
    rw [ht]
    simpa using hs.cons TestKind.culling

/-- `buildInitialMod` on a draw event (neither clear nor direct write)
is the must-fail flag application followed by `UpdateTestsFailed`. -/
theorem buildInitialMod_draw (flagsOf : Nat → Nat) (tfOccl : Nat → TestKind → Nat)
    (e : EventUsage) (hclear : e.usage ≠ ResourceUsage.Clear)
    (hdw : isDirectWrite e.usage = false) :
    buildInitialMod flagsOf tfOccl e =
      (UpdateTestsFailed (hasEarlyFragments e.eventId) (flagsOf e.eventId) (tfOccl e.eventId)
        (applyStaticFlags (flagsOf e.eventId)
          { emptyPixelModification with
            eventId := e.eventId
            directShaderWrite := isDirectWrite e.usage
            unboundPS := false })).1 := by
  have h1 : (e.usage == ResourceUsage.Clear) = false := beq_eq_false_iff_ne.mpr hclear
  unfold buildInitialMod
  simp [h1, hdw]

/-- C3 (amended): a `TestMustFail_*` flag for culling, scissor, sample
mask, stencil or depth suppresses that test's occlusion query and every
query of a test later in the fixed order; the corresponding output flag
is set statically for culling, scissor, sample mask and depth, but NOT
for stencil (the source has no `TestMustFail_StencilTesting` branch in
the flag application). -/
theorem mustFail_shortCircuit_spec (flagsOf : Nat → Nat) (tfOccl : Nat → TestKind → Nat)
    (e : EventUsage) (hclear : e.usage ≠ ResourceUsage.Clear)
    (hdw : isDirectWrite e.usage = false) :
    (hasFlag (flagsOf e.eventId) TestMustFail_Culling = true →
      ReplayDrawWithTestsQueries (flagsOf e.eventId) = [] ∧
      (buildInitialMod flagsOf tfOccl e).backfaceCulled = true) ∧
    (hasFlag (flagsOf e.eventId) TestMustFail_Scissor = true →
      (∀ t ∈ ReplayDrawWithTestsQueries (flagsOf e.eventId),
        testOrder t < testOrder TestKind.scissor) ∧
      (buildInitialMod flagsOf tfOccl e).scissorClipped = true) ∧
    (hasFlag (flagsOf e.eventId) TestMustFail_SampleMask = true →
      (∀ t ∈ ReplayDrawWithTestsQueries (flagsOf e.eventId),
        testOrder t < testOrder TestKind.sampleMask) ∧
      (buildInitialMod flagsOf tfOccl e).sampleMasked = true) ∧
    (hasFlag (flagsOf e.eventId) TestMustFail_DepthTesting = true →
      (∀ t ∈ ReplayDrawWithTestsQueries (flagsOf e.eventId),
        testOrder t < testOrder TestKind.depth) ∧
      (buildInitialMod flagsOf tfOccl e).depthTestFailed = true) ∧
    (hasFlag (flagsOf e.eventId) TestMustFail_StencilTesting = true →
      ∀ t ∈ ReplayDrawWithTestsQueries (flagsOf e.eventId),
        testOrder t < testOrder TestKind.stencil) := by
  rw [buildInitialMod_draw flagsOf tfOccl e hclear hdw]
  refine ⟨fun h => ⟨rdwtq_culling_mustFail _ h, ?_⟩, fun h => ⟨rdwtq_scissor_mustFail _ h, ?_⟩,
    fun h => ⟨rdwtq_sampleMask_mustFail _ h, ?_⟩, fun h => ⟨rdwtq_depth_mustFail _ h, ?_⟩,
    fun h => rdwtq_stencil_mustFail _ h⟩
  · exact updateTestsFailed_backfaceCulled _ _ _ _
      (applyStaticFlags_backfaceCulled _ _ h)
      (maskCond_false TestMustFail_Culling (TestEnabled_Culling ||| TestMustFail_Culling)
        TestEnabled_Culling (hasFlag_iff.mp h) (by decide) (by decide))
  · exact updateTestsFailed_scissorClipped _ _ _ _
      (applyStaticFlags_scissorClipped _ _ h)
      (maskCond_false TestMustFail_Scissor
        (TestEnabled_Scissor ||| TestMustPass_Scissor ||| TestMustFail_Scissor)
        TestEnabled_Scissor (hasFlag_iff.mp h) (by decide) (by decide))
  · exact updateTestsFailed_sampleMasked _ _ _ _
      (applyStaticFlags_sampleMasked _ _ h)
      (maskCond_false TestMustFail_SampleMask
        (TestEnabled_SampleMask ||| TestMustFail_SampleMask)
        TestEnabled_SampleMask (hasFlag_iff.mp h) (by decide) (by decide))
  · exact updateTestsFailed_depthTestFailed _ _ _ _
      (applyStaticFlags_depthTestFailed _ _ h)
      (maskCond_false TestMustFail_DepthTesting
        (TestEnabled_DepthTesting ||| TestMustFail_DepthTesting)
        TestEnabled_DepthTesting (hasFlag_iff.mp h) (by decide) (by decide))

/-- Witness for the C3 theorem: a draw event whose flags carry
`TestMustFail_SampleMask` (flags 16452 = sample mask and discard enabled,
sample-mask must-fail). -/
theorem mustFail_shortCircuit_spec_witness :
    (∀ t ∈ ReplayDrawWithTestsQueries 16452, testOrder t < testOrder TestKind.sampleMask) ∧
    (buildInitialMod (fun _ => 16452) (fun _ _ => 1)
      ⟨1, ResourceUsage.ColorTarget⟩).sampleMasked = true :=
  (mustFail_shortCircuit_spec (fun _ => 16452) (fun _ _ => 1) ⟨1, ResourceUsage.ColorTarget⟩
    (by decide) (by decide)).2.2.1 (by decide)

/-- Counterexample to C3 as stated: for a stencil must-fail draw event
(flags 8276) the output record's `stencilTestFailed` flag is NOT set. -/
theorem mustFail_stencil_flag_counterexample :
    hasFlag 8276 TestMustFail_StencilTesting = true ∧
    (buildInitialMod (fun _ => 8276) (fun _ _ => 1)
      ⟨1, ResourceUsage.ColorTarget⟩).stencilTestFailed = false := by
  constructor
  · decide
  · rfl

/-- C4 (amended): early-fragment-tests detection is hardcoded false, and
therefore `UpdateTestsFailed` always evaluates the shader-discard outcome
in the default (early) position: after the sample mask and before depth
bounds, stencil and depth — the occlusion-result reads are always a
subsequence of [culling, scissor, sampleMask, discard, depthBounds,
stencil, depth]. -/
theorem shaderDiscard_defaultPosition_spec (eventId : Nat) (f : Nat) (o : TestKind → Nat)
    (m : PixelModification) :
    hasEarlyFragments eventId = false ∧
    ((UpdateTestsFailed (hasEarlyFragments eventId) f o m).2).Sublist
      [TestKind.culling, TestKind.scissor, TestKind.sampleMask, TestKind.discard,
        TestKind.depthBounds, TestKind.stencil, TestKind.depth] :=
  ⟨rfl, updateTestsFailed_trace_false f o m⟩

/-- Counterexample to C4 as stated: with flags 76 (sample mask, depth
bounds and discard enabled) the reads are sampleMask, discard,
depthBounds — not a subsequence of the late order that puts discard after
depth bounds, stencil and depth. -/
theorem shaderDiscard_latePosition_counterexample :
    (UpdateTestsFailed (hasEarlyFragments 0) 76 (fun _ => 1) emptyPixelModification).2 =
      [TestKind.sampleMask, TestKind.discard, TestKind.depthBounds] ∧
    ¬ ((UpdateTestsFailed (hasEarlyFragments 0) 76 (fun _ => 1) emptyPixelModification).2).Sublist
      [TestKind.culling, TestKind.scissor, TestKind.sampleMask, TestKind.depthBounds,
        TestKind.stencil, TestKind.depth, TestKind.discard] := by
  constructor
  · rfl
  · decide

/-- C8: `CalculateEventFlags` never sets `TestEnabled_Scissor`, so no
isolated scissor query is issued, each draw issues at most 6 per-test
queries, and the total query count stays within the pool size of
6 x number of draw events (each query index is strictly below the running
total). -/
theorem tfQueryBound_spec :
    (∀ (ib : Bool) (x y sm : Nat) (p : PipelineInfo) (st : RenderState),
      hasFlag (CalculateEventFlags ib x y sm p st) TestEnabled_Scissor = false) ∧
    (∀ f : Nat, hasFlag f TestEnabled_Scissor = false →
      TestKind.scissor ∉ ReplayDrawWithTestsQueries f ∧
        (ReplayDrawWithTestsQueries f).length ≤ 6) ∧
    (∀ (flagsOf : Nat → Nat) (drawEvents : List Nat),
      (∀ e ∈ drawEvents, hasFlag (flagsOf e) TestEnabled_Scissor = false) →
      totalTfQueries flagsOf drawEvents ≤ 6 * drawEvents.length) :=
  ⟨calculateEventFlags_no_scissor_enabled,
    fun f h => ⟨scissor_not_in_queries f h, replayDrawWithTestsQueries_length_le f h⟩,
    totalTfQueries_le⟩

/-- Witness for the C8 theorem at concrete inputs. -/
theorem tfQueryBound_spec_witness :
    hasFlag 125 TestEnabled_Scissor = false ∧
    (ReplayDrawWithTestsQueries 125).length ≤ 6 ∧
    totalTfQueries (fun _ => 125) [3, 5] ≤ 6 * 2 := by
  refine ⟨by decide, (tfQueryBound_spec.2.1 125 (by decide)).2, ?_⟩
  have h := tfQueryBound_spec.2.2 (fun _ => 125) [3, 5]
    (fun e _ => by show hasFlag 125 TestEnabled_Scissor = false; decide)
  simpa using h

/-- C9: `CalculateEventFlags` always sets `TestEnabled_SampleMask` and
`TestEnabled_FragmentDiscard`, and the sample-mask / shader-discard
isolation redraws are issued exactly for the draws not short-circuited by
a must-fail flag at or before their position in the test order. -/
theorem alwaysEnabledTests_spec :
    (∀ (ib : Bool) (x y sm : Nat) (p : PipelineInfo) (st : RenderState),
      hasFlag (CalculateEventFlags ib x y sm p st) TestEnabled_SampleMask = true ∧
      hasFlag (CalculateEventFlags ib x y sm p st) TestEnabled_FragmentDiscard = true) ∧
    (∀ f : Nat, hasFlag f TestEnabled_SampleMask = true →
      hasFlag f TestEnabled_FragmentDiscard = true →
      (TestKind.sampleMask ∈ ReplayDrawWithTestsQueries f ↔
        hasFlag f TestMustFail_Culling = false ∧ hasFlag f TestMustFail_Scissor = false ∧
          hasFlag f TestMustFail_SampleMask = false) ∧
      (TestKind.discard ∈ ReplayDrawWithTestsQueries f ↔
        hasFlag f TestMustFail_Culling = false ∧ hasFlag f TestMustFail_Scissor = false ∧
          hasFlag f TestMustFail_SampleMask = false ∧
          hasFlag f TestMustFail_StencilTesting = false ∧
          hasFlag f TestMustFail_DepthTesting = false)) :=
  ⟨fun ib x y sm p st =>
      ⟨calculateEventFlags_sampleMask_set ib x y sm p st,
        calculateEventFlags_discard_set ib x y sm p st⟩,
    fun f h1 h2 => ⟨sampleMask_query_iff f h1, discard_query_iff f h2⟩⟩

/-- Witness for the C9 theorem: flags 68 (sample mask and discard
enabled, nothing else) issue both isolation redraws. -/
theorem alwaysEnabledTests_spec_witness :
    TestKind.sampleMask ∈ ReplayDrawWithTestsQueries 68 ∧
    TestKind.discard ∈ ReplayDrawWithTestsQueries 68 :=
  ⟨((alwaysEnabledTests_spec.2 68 (by decide) (by decide)).1).mpr
      ⟨by decide, by decide, by decide⟩,
    ((alwaysEnabledTests_spec.2 68 (by decide) (by decide)).2).mpr
      ⟨by decide, by decide, by decide, by decide, by decide⟩⟩

theorem primIdPass_map_projA (ewf : List (Nat × Nat)) (off : Nat → Nat)
    (bp : Nat → PerFragmentInfo) :
    ∀ l : List PixelModification, (primIdPass ewf off bp l).1.map projA = l.map projA := by
  intro l
  induction l with
  | nil => rfl
  | cons mod rest ih =>
    unfold primIdPass
    dsimp only []
    split_ifs <;> simp [projA, ih]

theorem discardPass_map_projB (prims : List (Nat × Int)) (d : Nat → Int → Nat)
    (l : List PixelModification) : (discardPass prims d l).map projB = l.map projB := by
  unfold discardPass
  rw [List.map_map]
  rfl

theorem valueFillGo_map_projC (ewf : List (Nat × Nat)) (off : Nat → Nat)
    (bp : Nat → PerFragmentInfo) (cT cS : Nat → Nat) :
    ∀ (l : List PixelModification) (prev : Option PixelModification) (dOff : Nat),
      (valueFillGo ewf off bp cT cS prev dOff l).map projC = l.map projC := by
  intro l
  induction l with
  | nil => intro prev dOff; rfl
  | cons mod rest ih =>
    intro prev dOff
    unfold valueFillGo
    cases prev <;> dsimp only [] <;> split_ifs <;>
      first
        | (cases rest with
            | nil => simp [projC, ih]
            | cons b l2 => dsimp only []; split_ifs <;> simp [projC, ih])
        | simp [projC, ih]

theorem perFragmentPhase_map_projEF (ewf : List (Nat × Nat)) (off : Nat → Nat)
    (bp : Nat → PerFragmentInfo) (d : Nat → Int → Nat) (cT cS : Nat → Nat)
    (l : List PixelModification) :
    (perFragmentPhase ewf off bp d cT cS l).map projEF = l.map projEF := by
  have hC : ∀ l1 l2 : List PixelModification, l1.map projC = l2.map projC →
      l1.map projEF = l2.map projEF := by
    intro l1 l2 h
    have h2 := congrArg (List.map (fun t : Nat × Nat × ModificationValue × Bool =>
      (t.1, t.2.1))) h
    simpa [List.map_map, Function.comp, projC, projEF] using h2
  have hB : ∀ l1 l2 : List PixelModification, l1.map projB = l2.map projB →
      l1.map projEF = l2.map projEF := by
    intro l1 l2 h
    have h2 := congrArg (List.map
      (fun t : Nat × Nat × ModificationValue × ModificationValue => (t.1, t.2.1))) h
    simpa [List.map_map, Function.comp, projB, projEF] using h2
  have hA : ∀ l1 l2 : List PixelModification, l1.map projA = l2.map projA →
      l1.map projEF = l2.map projEF := by
    intro l1 l2 h
    have h2 := congrArg (List.map
      (fun t : Nat × Nat × ModificationValue × ModificationValue × Bool => (t.1, t.2.1))) h
    simpa [List.map_map, Function.comp, projA, projEF] using h2
  unfold perFragmentPhase
  dsimp only []
  split_ifs with h1 h2
  · rfl
  · calc (valueFillGo ewf off bp cT cS none 0
          (discardPass (primIdPass ewf off bp l).2 d (primIdPass ewf off bp l).1)).map projEF
        = (discardPass (primIdPass ewf off bp l).2 d (primIdPass ewf off bp l).1).map projEF :=
          hC _ _ (valueFillGo_map_projC ewf off bp cT cS _ none 0)
      _ = ((primIdPass ewf off bp l).1).map projEF := hB _ _ (discardPass_map_projB _ _ _)
      _ = l.map projEF := hA _ _ (primIdPass_map_projA ewf off bp l)
  · calc (valueFillGo ewf off bp cT cS none 0 (primIdPass ewf off bp l).1).map projEF
        = ((primIdPass ewf off bp l).1).map projEF :=
          hC _ _ (valueFillGo_map_projC ewf off bp cT cS _ none 0)
      _ = l.map projEF := hA _ _ (primIdPass_map_projA ewf off bp l)

theorem perFragmentPhase_map_projPre (ewf : List (Nat × Nat)) (off : Nat → Nat)
    (bp : Nat → PerFragmentInfo) (d : Nat → Int → Nat) (cT cS : Nat → Nat)
    (l : List PixelModification) :
    (perFragmentPhase ewf off bp d cT cS l).map projPre = l.map projPre := by
  have hC : ∀ l1 l2 : List PixelModification, l1.map projC = l2.map projC →
      l1.map projPre = l2.map projPre := by
    intro l1 l2 h
    have h2 := congrArg (List.map (fun t : Nat × Nat × ModificationValue × Bool =>
      (t.1, t.2.2.1))) h
    simpa [List.map_map, Function.comp, projC, projPre] using h2
  have hB : ∀ l1 l2 : List PixelModification, l1.map projB = l2.map projB →
      l1.map projPre = l2.map projPre := by
    intro l1 l2 h
    have h2 := congrArg (List.map
      (fun t : Nat × Nat × ModificationValue × ModificationValue => (t.1, t.2.2.1))) h
    simpa [List.map_map, Function.comp, projB, projPre] using h2
  have hA : ∀ l1 l2 : List PixelModification, l1.map projA = l2.map projA →
      l1.map projPre = l2.map projPre := by
    intro l1 l2 h
    have h2 := congrArg (List.map
      (fun t : Nat × Nat × ModificationValue × ModificationValue × Bool => (t.1, t.2.2.1))) h
    simpa [List.map_map, Function.comp, projA, projPre] using h2
  unfold perFragmentPhase
  dsimp only []
  split_ifs with h1 h2
  · rfl
  · calc (valueFillGo ewf off bp cT cS none 0
          (discardPass (primIdPass ewf off bp l).2 d (primIdPass ewf off bp l).1)).map projPre
        = (discardPass (primIdPass ewf off bp l).2 d (primIdPass ewf off bp l).1).map projPre :=
          hC _ _ (valueFillGo_map_projC ewf off bp cT cS _ none 0)
      _ = ((primIdPass ewf off bp l).1).map projPre := hB _ _ (discardPass_map_projB _ _ _)
      _ = l.map projPre := hA _ _ (primIdPass_map_projA ewf off bp l)
  · calc (valueFillGo ewf off bp cT cS none 0 (primIdPass ewf off bp l).1).map projPre
        = ((primIdPass ewf off bp l).1).map projPre :=
          hC _ _ (valueFillGo_map_projC ewf off bp cT cS _ none 0)
      _ = l.map projPre := hA _ _ (primIdPass_map_projA ewf off bp l)

theorem perFragmentPhase_eids (ewf : List (Nat × Nat)) (off : Nat → Nat)
    (bp : Nat → PerFragmentInfo) (d : Nat → Int → Nat) (cT cS : Nat → Nat)
    (l : List PixelModification) :
    eids (perFragmentPhase ewf off bp d cT cS l) = eids l := by
  have h := congrArg (List.map (fun t : Nat × Nat => t.1))
    (perFragmentPhase_map_projEF ewf off bp d cT cS l)
  simpa [eids, List.map_map, Function.comp, projEF] using h

theorem mem_block_eventId {mod1 : PixelModification} {n : Nat} {x : PixelModification}
    (hx : x ∈ (List.range n).map fun f => { mod1 with fragIndex := f }) :
    x.eventId = mod1.eventId := by
  obtain ⟨f, _, rfl⟩ := List.mem_map.mp hx
  rfl

theorem expandHistory_eids_sub (evIdx : Nat → Option Nat) (buf : Nat → EventInfo)
    (cT : Nat → Nat) :
    ∀ l : List PixelModification, ∀ m' ∈ (expandHistory evIdx buf cT l).1,
      ∃ m ∈ l, m'.eventId = m.eventId := by
  intro l
  induction l with
  | nil => intro m' h; cases h
  | cons mod rest ih =>
    intro m' h
    unfold expandHistory at h
    dsimp only [] at h
    cases hidx : evIdx mod.eventId with
    | none =>
      rw [hidx] at h
      rcases List.mem_cons.mp h with h2 | h2
      · exact ⟨mod, by simp, congrArg PixelModification.eventId h2⟩
      · obtain ⟨m, hm, he⟩ := ih m' h2
        exact ⟨m, by simp [hm], he⟩
    | some idx =>
      rw [hidx] at h
      rcases List.mem_append.mp h with h2 | h2
      · refine ⟨mod, by simp, ?_⟩
        split at h2
        · rw [List.mem_singleton.mp h2]
          rfl
        · exact @mem_block_eventId (expandEntry cT (buf idx) mod) _ _ h2
      · obtain ⟨m, hm, he⟩ := ih m' h2
        exact ⟨m, by simp [hm], he⟩

theorem expandHistory_eids_sup (evIdx : Nat → Option Nat) (buf : Nat → EventInfo)
    (cT : Nat → Nat) :
    ∀ l : List PixelModification, ∀ m ∈ l,
      ∃ m' ∈ (expandHistory evIdx buf cT l).1, m'.eventId = m.eventId := by
  intro l
  induction l with
  | nil => intro m h; cases h
  | cons mod rest ih =>
    intro m h
    rcases List.mem_cons.mp h with rfl | h2
    · unfold expandHistory
      dsimp only []
      cases hidx : evIdx m.eventId with
      | none => exact ⟨m, by simp, rfl⟩
      | some idx =>
        by_cases hf : (buf idx).fragsNoDiscard = 0
        · refine ⟨expandEntry cT (buf idx) m, ?_, rfl⟩
          simp [hf]
        · refine ⟨{ expandEntry cT (buf idx) m with fragIndex := 0 }, ?_, rfl⟩
          apply List.mem_append.mpr
          left
          rw [if_neg hf]
          exact List.mem_map.mpr ⟨0, List.mem_range.mpr (Nat.pos_of_ne_zero hf), rfl⟩
    · obtain ⟨m', hm', he⟩ := ih m h2
      unfold expandHistory
      dsimp only []
      cases hidx : evIdx mod.eventId with
      | none => exact ⟨m', by simp [hm'], he⟩
      | some idx => exact ⟨m', List.mem_append.mpr (Or.inr hm'), he⟩

theorem expandHistory_values (evIdx : Nat → Option Nat) (buf : Nat → EventInfo)
    (cT : Nat → Nat) :
    ∀ l : List PixelModification, ∀ m' ∈ (expandHistory evIdx buf cT l).1,
      ∀ idx, evIdx m'.eventId = some idx →
        m'.preMod = fillInValue cT (buf idx).premod ∧
        m'.postMod = fillInValue cT (buf idx).postmod := by
  intro l
  induction l with
  | nil => intro m' h; cases h
  | cons mod rest ih =>
    intro m' h idx hidx2
    unfold expandHistory at h
    dsimp only [] at h
    cases hidx : evIdx mod.eventId with
    | none =>
      rw [hidx] at h
      rcases List.mem_cons.mp h with rfl | h2
      · rw [hidx2] at hidx; cases hidx
      · exact ih m' h2 idx hidx2
    | some idx0 =>
      rw [hidx] at h
      rcases List.mem_append.mp h with h2 | h2
      · have hee : m'.eventId = mod.eventId := by
          split at h2
          · rw [List.mem_singleton.mp h2]
            rfl
          · exact @mem_block_eventId (expandEntry cT (buf idx0) mod) _ _ h2
        have hsame : idx0 = idx := by
          rw [hee, hidx] at hidx2
          exact (Option.some.injEq _ _).mp hidx2
        subst hsame
        split at h2
        · have h3 := List.mem_singleton.mp h2
          subst h3
          exact ⟨rfl, rfl⟩
        · obtain ⟨f, _, h3⟩ := List.mem_map.mp h2
          subst h3
          exact ⟨rfl, rfl⟩
      · exact ih m' h2 idx hidx2

theorem applyStaticFlags_corePart (flags : Nat) (m : PixelModification) :
    corePart (applyStaticFlags flags m) = corePart m := by
  unfold applyStaticFlags; dsimp only []; split_ifs <;> simp [corePart]

theorem updateTestsFailed_corePart (e : Bool) (f : Nat) (o : TestKind → Nat)
    (m : PixelModification) :
    corePart (UpdateTestsFailed e f o m).1 = corePart m := by
  have h := updateTestsFailed_staticPart e f o m
  exact congrArg (fun t => (t.1, t.2.1, t.2.2.2)) h

theorem buildInitialMod_core (flagsOf : Nat → Nat) (tfOccl : Nat → TestKind → Nat)
    (e : EventUsage) :
    corePart (buildInitialMod flagsOf tfOccl e) =
      corePart { emptyPixelModification with
        eventId := e.eventId
        directShaderWrite := isDirectWrite e.usage
        unboundPS := false } := by
  unfold buildInitialMod
  dsimp only []
  split_ifs with h
  · rw [updateTestsFailed_corePart, applyStaticFlags_corePart]
  · rfl

theorem buildInitialMod_eventId (flagsOf : Nat → Nat) (tfOccl : Nat → TestKind → Nat)
    (e : EventUsage) : (buildInitialMod flagsOf tfOccl e).eventId = e.eventId :=
  congrArg (fun t => t.1) (buildInitialMod_core flagsOf tfOccl e)

theorem buildInitialMod_fragIndex (flagsOf : Nat → Nat) (tfOccl : Nat → TestKind → Nat)
    (e : EventUsage) : (buildInitialMod flagsOf tfOccl e).fragIndex = 0 :=
  congrArg (fun t => t.2.2.1) (buildInitialMod_core flagsOf tfOccl e)

theorem mem_gatherDrawEvents {occl : Nat → Nat} {events : List EventUsage} {eid : Nat} :
    eid ∈ gatherDrawEvents occl events ↔
      ∃ e ∈ events, (isDirectWrite e.usage || e.usage == ResourceUsage.Clear) = false ∧
        occl e.eventId > 0 ∧ e.eventId = eid := by
  unfold gatherDrawEvents
  rw [List.mem_filterMap]
  constructor
  · rintro ⟨e, he, hf⟩
    by_cases h1 : (isDirectWrite e.usage || e.usage == ResourceUsage.Clear) = true
    · rw [if_pos h1] at hf; cases hf
    · rw [if_neg h1] at hf
      by_cases h2 : occl e.eventId > 0
      · rw [if_pos h2] at hf
        exact ⟨e, he, by simpa using h1, h2, (Option.some.injEq _ _).mp hf⟩
      · rw [if_neg h2] at hf; cases hf
  · rintro ⟨e, he, h1, h2, h3⟩
    refine ⟨e, he, ?_⟩
    rw [if_neg (by simp [h1]), if_pos h2, h3]

theorem mem_buildInitialHistory {occl : Nat → Nat} {flagsOf : Nat → Nat}
    {tfOccl : Nat → TestKind → Nat} {events : List EventUsage} {m : PixelModification} :
    m ∈ buildInitialHistory occl flagsOf tfOccl events ↔
      ∃ e ∈ events,
        ((gatherDrawEvents occl events).contains e.eventId ||
          e.usage == ResourceUsage.Clear || isDirectWrite e.usage) = true ∧
        m = buildInitialMod flagsOf tfOccl e := by
  unfold buildInitialHistory
  rw [List.mem_filterMap]
  constructor
  · rintro ⟨e, he, hf⟩
    by_cases h1 : ((gatherDrawEvents occl events).contains e.eventId ||
        e.usage == ResourceUsage.Clear || isDirectWrite e.usage) = true
    · rw [if_pos h1] at hf
      exact ⟨e, he, h1, ((Option.some.injEq _ _).mp hf).symm⟩
    · rw [if_neg h1] at hf; cases hf
  · rintro ⟨e, he, h1, h2⟩
    exact ⟨e, he, by rw [if_pos h1, h2]⟩

/-- C1: a clear or direct-write event always yields a history entry for
its event id, regardless of the occlusion oracle; an event id whose
occurrences are all draws (neither clear nor direct write) with occlusion
result 0 yields no entry. -/
theorem clearKept_zeroDrawDropped_spec (o : PixelHistoryOracles) (events : List EventUsage) :
    (∀ e ∈ events, (e.usage = ResourceUsage.Clear ∨ isDirectWrite e.usage = true) →
      ∃ m ∈ pixelHistoryCore o events, m.eventId = e.eventId) ∧
    (∀ eid : Nat,
      (∀ e ∈ events, e.eventId = eid →
        e.usage ≠ ResourceUsage.Clear ∧ isDirectWrite e.usage = false) →
      o.occl eid = 0 →
      ∀ m ∈ pixelHistoryCore o events, m.eventId ≠ eid) := by
  have hcore : pixelHistoryCore o events =
      perFragmentPhase
        (expandHistory o.evIdx o.buf o.convT
          (buildInitialHistory o.occl o.flagsOf o.tfOccl events)).2
        o.offsetOf o.bp o.discardOccl o.convT o.convS
        (expandHistory o.evIdx o.buf o.convT
          (buildInitialHistory o.occl o.flagsOf o.tfOccl events)).1 := rfl
  have heids : eids (pixelHistoryCore o events) =
      eids (expandHistory o.evIdx o.buf o.convT
        (buildInitialHistory o.occl o.flagsOf o.tfOccl events)).1 := by
    rw [hcore]
    exact perFragmentPhase_eids _ _ _ _ _ _ _
  constructor
  · intro e he hkind
    have hcond : ((gatherDrawEvents o.occl events).contains e.eventId ||
        e.usage == ResourceUsage.Clear || isDirectWrite e.usage) = true := by
      rcases hkind with h | h
      · simp [h]
      · simp [h]
    have h0 : buildInitialMod o.flagsOf o.tfOccl e ∈
        buildInitialHistory o.occl o.flagsOf o.tfOccl events :=
      mem_buildInitialHistory.mpr ⟨e, he, hcond, rfl⟩
    obtain ⟨m1, hm1, he1⟩ := expandHistory_eids_sup o.evIdx o.buf o.convT _ _ h0
    have hmem : m1.eventId ∈ eids (pixelHistoryCore o events) := by
      rw [heids]
      exact List.mem_map_of_mem _ hm1
    obtain ⟨m, hm, hmeid⟩ := List.mem_map.mp hmem
    refine ⟨m, hm, ?_⟩
    rw [hmeid, he1, buildInitialMod_eventId]
  · intro eid hdraw hocc m hm heq
    have hmem : m.eventId ∈ eids (expandHistory o.evIdx o.buf o.convT
        (buildInitialHistory o.occl o.flagsOf o.tfOccl events)).1 := by
      rw [← heids]
      exact List.mem_map_of_mem _ hm
    obtain ⟨m2, hm2, he2⟩ := List.mem_map.mp hmem
    obtain ⟨m0, hm0, he0⟩ := expandHistory_eids_sub o.evIdx o.buf o.convT _ m2 hm2
    obtain ⟨e, he, hcond, hbm⟩ := mem_buildInitialHistory.mp hm0
    have heid0 : m0.eventId = e.eventId := by rw [hbm, buildInitialMod_eventId]
    have heide : e.eventId = eid := by rw [← heid0, ← he0, he2, heq]
    obtain ⟨hnclear, hndw⟩ := hdraw e he heide
    have hclearb : (e.usage == ResourceUsage.Clear) = false := beq_eq_false_iff_ne.mpr hnclear
    have hcontains : (gatherDrawEvents o.occl events).contains e.eventId = true := by
      rcases Bool.or_eq_true_iff.mp hcond with h | h
      · rcases Bool.or_eq_true_iff.mp h with h2 | h2
        · exact h2
        · rw [hclearb] at h2; cases h2
      · rw [hndw] at h; cases h
    have hin : e.eventId ∈ gatherDrawEvents o.occl events := by
      simpa using hcontains
    obtain ⟨e2, _, _, hpos, heid2⟩ := mem_gatherDrawEvents.mp hin
    rw [heid2, heide, hocc] at hpos
    exact absurd hpos (by decide)

theorem range'_succ_eq (s n : Nat) : List.range' s (n + 1) = s :: List.range' (s + 1) n := rfl

theorem range_eq_range'_zero (n : Nat) : List.range n = List.range' 0 n :=
  List.range_eq_range' n

theorem chain_block (mod1 : PixelModification) :
    ∀ (n s : Nat),
      List.Chain' histStep ((List.range' s n).map fun f => { mod1 with fragIndex := f })
  | 0, _ => by simp
  | 1, s => by simp [range'_succ_eq]
  | n + 2, s => by
    have ih := chain_block mod1 (n + 1) (s + 1)
    rw [range'_succ_eq s (n + 1), range'_succ_eq (s + 1) n] at *
    rw [List.map_cons, List.map_cons] at *
    refine List.chain'_cons.mpr ⟨Or.inl ⟨rfl, rfl⟩, ?_⟩
    exact ih

theorem mem_of_getLast?Mem {l : List PixelModification} {x : PixelModification}
    (h : x ∈ l.getLast?) : x ∈ l := by
  obtain ⟨hne, h2⟩ := List.mem_getLast?_eq_getLast h
  rw [h2]
  exact List.getLast_mem hne

/-- Expansion produces blocks of consecutive fragment indices starting at
0, separated by strictly increasing event ids, when the input is sorted
with one entry per event (fragment index 0). -/
theorem expandHistory_chain (evIdx : Nat → Option Nat) (buf : Nat → EventInfo) (cT : Nat → Nat) :
    ∀ l : List PixelModification,
      List.Pairwise (fun a b => a.eventId < b.eventId) l →
      (∀ m ∈ l, m.fragIndex = 0) →
      List.Chain' histStep (expandHistory evIdx buf cT l).1 ∧
      (∀ m', (expandHistory evIdx buf cT l).1.head? = some m' → m'.fragIndex = 0) := by
  intro l
  induction l with
  | nil => exact fun _ _ => ⟨by simp [expandHistory], fun m' h => by cases h⟩
  | cons mod rest ih =>
    intro hp hz
    obtain ⟨hlt, hp'⟩ := List.pairwise_cons.mp hp
    obtain ⟨chainT, headT⟩ := ih hp' (fun m hm => hz m (List.mem_cons_of_mem _ hm))
    have hlink : ∀ x : PixelModification, x.eventId = mod.eventId →
        ∀ y ∈ (expandHistory evIdx buf cT rest).1.head?, histStep x y := by
      intro x hx y hy
      have hymem := List.mem_of_mem_head? hy
      obtain ⟨m, hm, he⟩ := expandHistory_eids_sub evIdx buf cT rest y hymem
      have hyfrag : y.fragIndex = 0 := headT y hy
      right
      constructor
      · rw [hx, he]
        exact hlt m hm
      · exact hyfrag
    unfold expandHistory
    dsimp only []
    cases hidx : evIdx mod.eventId with
    | none =>
      constructor
      · refine List.chain'_cons'.mpr ⟨?_, chainT⟩
        exact hlink mod rfl
      · intro m' h
        have h2 : mod = m' := by
          simpa using h
        rw [← h2]
        exact hz mod (by simp)
    | some idx =>
      have hblock : ∀ x ∈ (if (buf idx).fragsNoDiscard = 0 then [expandEntry cT (buf idx) mod]
          else (List.range (buf idx).fragsNoDiscard).map
            fun f => { expandEntry cT (buf idx) mod with fragIndex := f }),
          x.eventId = mod.eventId := by
        intro x hx
        split at hx
        · rw [List.mem_singleton.mp hx]
          rfl
        · exact @mem_block_eventId (expandEntry cT (buf idx) mod) _ _ hx
      constructor
      · apply List.chain'_append.mpr
        refine ⟨?_, chainT, ?_⟩
        · split
          · exact List.chain'_singleton _
          · rw [range_eq_range'_zero]
            exact chain_block (expandEntry cT (buf idx) mod) _ 0
        · intro x hx y hy
          exact hlink x (hblock x (mem_of_getLast?Mem hx)) y hy
      · intro m' h
        dsimp only [] at h
        split at h
        next hf =>
          have h2 : expandEntry cT (buf idx) mod = m' := by
            simpa using h
          rw [← h2]
          show mod.fragIndex = 0
          exact hz mod (by simp)
        next hf =>
          have hrange : List.range (buf idx).fragsNoDiscard =
              0 :: List.range' 1 ((buf idx).fragsNoDiscard - 1) := by
            rw [range_eq_range'_zero]
            cases hn : (buf idx).fragsNoDiscard with
            | zero => exact absurd hn hf
            | succ k => simp [range'_succ_eq]
          rw [hrange] at h
          have h2 : ({ expandEntry cT (buf idx) mod with fragIndex := 0 } :
              PixelModification) = m' := by
            simpa using h
          rw [← h2]

theorem buildInitialHistory_pairwise (occl flagsOf : Nat → Nat)
    (tfOccl : Nat → TestKind → Nat) (events : List EventUsage)
    (hp : List.Pairwise (fun a b : EventUsage => a.eventId < b.eventId) events) :
    List.Pairwise (fun a b : PixelModification => a.eventId < b.eventId)
      (buildInitialHistory occl flagsOf tfOccl events) := by
  unfold buildInitialHistory
  dsimp only []
  rw [List.pairwise_filterMap]
  refine List.Pairwise.imp ?_ hp
  intro a b hab m hm m' hm'
  split at hm
  · split at hm'
    · simp only [Option.mem_some_iff] at hm hm'
      rw [← hm, ← hm', buildInitialMod_eventId, buildInitialMod_eventId]
      exact hab
    · simp at hm'
  · simp at hm

theorem buildInitialHistory_fragIndex (occl flagsOf : Nat → Nat)
    (tfOccl : Nat → TestKind → Nat) (events : List EventUsage) :
    ∀ m ∈ buildInitialHistory occl flagsOf tfOccl events, m.fragIndex = 0 := by
  intro m hm
  obtain ⟨e, _, _, rfl⟩ := mem_buildInitialHistory.mp hm
  exact buildInitialMod_fragIndex _ _ e

theorem chain_histStep_of_map_eq {l1 l2 : List PixelModification}
    (h : l1.map projEF = l2.map projEF) (hc : List.Chain' histStep l1) :
    List.Chain' histStep l2 := by
  have h1 : List.Chain' pairStep (l1.map projEF) := by
    rw [List.chain'_map]
    exact List.Chain'.imp (fun a b hab => hab) hc
  rw [h, List.chain'_map] at h1
  exact List.Chain'.imp (fun a b hab => hab) h1

theorem head_fragIndex_of_map_eq {l1 l2 : List PixelModification}
    (h : l1.map projEF = l2.map projEF)
    (h0 : ∀ m, l1.head? = some m → m.fragIndex = 0) :
    ∀ m, l2.head? = some m → m.fragIndex = 0 := by
  intro m hm
  have h2 := congrArg List.head? h
  rw [List.head?_map, List.head?_map, hm] at h2
  cases hl : l1.head? with
  | none => rw [hl] at h2; simp at h2
  | some m0 =>
    rw [hl] at h2
    simp only [Option.map_some'] at h2
    have h3 : (projEF m0).2 = (projEF m).2 := congrArg Prod.snd (Option.some.inj h2)
    have h4 : m0.fragIndex = m.fragIndex := h3
    rw [← h4]
    exact h0 m0 hl

theorem pairwise_le_of_chain {l : List PixelModification}
    (hc : List.Chain' histStep l) :
    List.Pairwise (fun a b : PixelModification => a.eventId ≤ b.eventId) l := by
  haveI : IsTrans PixelModification (fun a b : PixelModification => a.eventId ≤ b.eventId) :=
    ⟨fun a b c h1 h2 => le_trans h1 h2⟩
  refine List.chain'_iff_pairwise.mp (List.Chain'.imp ?_ hc)
  intro a b hab
  rcases hab with ⟨he, _⟩ | ⟨hlt, _⟩
  · exact le_of_eq he
  · exact le_of_lt hlt

/-- C7: provided the input event list is sorted by event id strictly
ascending, the history returned by `PixelHistory` is sorted by event id
ascending, and consecutive entries either stay within one event with the
fragment index incremented by one or move to a strictly later event with
the fragment index restarting at 0, the first entry carrying fragment
index 0 — i.e. the entries of a single event carry fragment indices
0..N-1 in ascending order.  The spec's unconditional version over
arbitrary event sequences is refuted separately: the history-building
loops preserve the input order rather than sorting. -/
theorem historySorted_spec (o : PixelHistoryOracles) (api fmt : Bool)
    (events : List EventUsage)
    (hp : List.Pairwise (fun a b : EventUsage => a.eventId < b.eventId) events) :
    List.Pairwise (fun a b : PixelModification => a.eventId ≤ b.eventId)
      (PixelHistory o api fmt events).2 ∧
    List.Chain' histStep (PixelHistory o api fmt events).2 ∧
    ∀ m, (PixelHistory o api fmt events).2.head? = some m → m.fragIndex = 0 := by
  have hh0p := buildInitialHistory_pairwise o.occl o.flagsOf o.tfOccl events hp
  have hh0f := buildInitialHistory_fragIndex o.occl o.flagsOf o.tfOccl events
  obtain ⟨hc, hh⟩ := expandHistory_chain o.evIdx o.buf o.convT
    (buildInitialHistory o.occl o.flagsOf o.tfOccl events) hh0p hh0f
  have hmap := perFragmentPhase_map_projEF
    (expandHistory o.evIdx o.buf o.convT
      (buildInitialHistory o.occl o.flagsOf o.tfOccl events)).2
    o.offsetOf o.bp o.discardOccl o.convT o.convS
    (expandHistory o.evIdx o.buf o.convT
      (buildInitialHistory o.occl o.flagsOf o.tfOccl events)).1
  have hcore : pixelHistoryCore o events =
      perFragmentPhase
        (expandHistory o.evIdx o.buf o.convT
          (buildInitialHistory o.occl o.flagsOf o.tfOccl events)).2
        o.offsetOf o.bp o.discardOccl o.convT o.convS
        (expandHistory o.evIdx o.buf o.convT
          (buildInitialHistory o.occl o.flagsOf o.tfOccl events)).1 := rfl
  have hchain : List.Chain' histStep (pixelHistoryCore o events) := by
    rw [hcore]
    exact chain_histStep_of_map_eq hmap.symm hc
  have hhead : ∀ m, (pixelHistoryCore o events).head? = some m → m.fragIndex = 0 := by
    rw [hcore]
    exact head_fragIndex_of_map_eq hmap.symm hh
  unfold PixelHistory
  dsimp only []
  split_ifs with h1 h2 h3 h4
  · exact ⟨by simp, by simp, fun m hm => by simp at hm⟩
  · exact ⟨by simp, by simp, fun m hm => by simp at hm⟩
  · exact ⟨by simp, by simp, fun m hm => by simp at hm⟩
  · exact ⟨pairwise_le_of_chain hchain, hchain, hhead⟩
  · exact ⟨pairwise_le_of_chain hchain, hchain, hhead⟩

/-- Witness for C7 at a sorted two-event input. -/
theorem historySorted_spec_witness :
    List.Pairwise (fun a b : EventUsage => a.eventId < b.eventId)
      [⟨1, ResourceUsage.Clear⟩, ⟨2, ResourceUsage.ColorTarget⟩] ∧
    List.Pairwise (fun a b : PixelModification => a.eventId ≤ b.eventId)
      (PixelHistory trivialOracles true false
        [⟨1, ResourceUsage.Clear⟩, ⟨2, ResourceUsage.ColorTarget⟩]).2 :=
  ⟨by decide,
    (historySorted_spec trivialOracles true false
      [⟨1, ResourceUsage.Clear⟩, ⟨2, ResourceUsage.ColorTarget⟩] (by decide)).1⟩

/-- Counterexample to C7 as stated: for the unsorted input event sequence
[2 (clear), 1 (clear)] the returned history keeps the input order
[2, 1], so it is not sorted by event id ascending. -/
theorem historySorted_counterexample :
    ¬ List.Pairwise (fun a b : PixelModification => a.eventId ≤ b.eventId)
      (PixelHistory trivialOracles true false
        [⟨2, ResourceUsage.Clear⟩, ⟨1, ResourceUsage.Clear⟩]).2 := by
  decide

theorem getElem?_proj_eq {α β : Type} (f : α → β) {l1 l2 : List α}
    (h : l1.map f = l2.map f) (i : Nat) : l1[i]?.map f = l2[i]?.map f := by
  rw [← List.getElem?_map, ← List.getElem?_map, h]

theorem valueFillGo_postMod_last (ewf : List (Nat × Nat)) (off : Nat → Nat)
    (bp : Nat → PerFragmentInfo) (cT cS : Nat → Nat) :
    ∀ (l : List PixelModification) (prev : Option PixelModification) (dOff0 i : Nat)
      (a : PixelModification),
      l[i]? = some a →
      a.shaderDiscarded = false →
      (∀ next, l[i+1]? = some next → next.eventId ≠ a.eventId) →
      ∃ a', (valueFillGo ewf off bp cT cS prev dOff0 l)[i]? = some a' ∧
        a'.postMod = a.postMod := by
  intro l
  induction l with
  | nil => intro prev dOff0 i a ha _ _; simp at ha
  | cons mod rest ih =>
    intro prev dOff0 i a ha hnd hnext
    cases i with
    | zero =>
      have hamod : mod = a := by simpa using ha
      subst hamod
      unfold valueFillGo
      dsimp only []
      split_ifs with h1 h2
      · rw [hnd] at h2
        cases h2
      · cases rest with
        | nil => exact ⟨_, List.getElem?_cons_zero, rfl⟩
        | cons next rest2 =>
          have hne : mod.eventId ≠ next.eventId :=
            fun h => hnext next (by simp) h.symm
          dsimp only []
          rw [if_neg hne]
          exact ⟨_, List.getElem?_cons_zero, rfl⟩
      · exact ⟨mod, List.getElem?_cons_zero, rfl⟩
    | succ j =>
      have hrest : rest[j]? = some a := by simpa using ha
      have hrestnext : ∀ next, rest[j+1]? = some next → next.eventId ≠ a.eventId := by
        intro next hn
        exact hnext next (by simpa using hn)
      unfold valueFillGo
      dsimp only []
      split_ifs with h1 h2
      · obtain ⟨a', h3, h4⟩ := ih _ _ j a hrest hnd hrestnext
        exact ⟨a', by simpa using h3, h4⟩
      · obtain ⟨a', h3, h4⟩ := ih _ _ j a hrest hnd hrestnext
        exact ⟨a', by simpa using h3, h4⟩
      · obtain ⟨a', h3, h4⟩ := ih _ _ j a hrest hnd hrestnext
        exact ⟨a', by simpa using h3, h4⟩

theorem map_projB_of_map_projA {l1 l2 : List PixelModification}
    (h : l1.map projA = l2.map projA) : l1.map projB = l2.map projB := by
  have h2 := congrArg (List.map
    (fun t : Nat × Nat × ModificationValue × ModificationValue × Bool =>
      (t.1, t.2.1, t.2.2.1, t.2.2.2.1))) h
  simpa [List.map_map, Function.comp, projA, projB] using h2

theorem perFragmentPhase_postMod_last (ewf : List (Nat × Nat)) (off : Nat → Nat)
    (bp : Nat → PerFragmentInfo) (d : Nat → Int → Nat) (cT cS : Nat → Nat)
    (l : List PixelModification) (i : Nat) (a : PixelModification)
    (ha : (perFragmentPhase ewf off bp d cT cS l)[i]? = some a)
    (hnd : a.shaderDiscarded = false)
    (hnext : ∀ next, (perFragmentPhase ewf off bp d cT cS l)[i+1]? = some next →
      next.eventId ≠ a.eventId) :
    ∃ c, l[i]? = some c ∧ c.eventId = a.eventId ∧ c.postMod = a.postMod := by
  unfold perFragmentPhase at ha hnext
  dsimp only [] at ha hnext
  by_cases hemp : ewf.isEmpty
  · rw [if_pos hemp] at ha
    exact ⟨a, ha, rfl, rfl⟩
  · rw [if_neg hemp] at ha hnext
    set S := (if (primIdPass ewf off bp l).2.length > 0
      then discardPass (primIdPass ewf off bp l).2 d (primIdPass ewf off bp l).1
      else (primIdPass ewf off bp l).1) with hS
    have hCmap := valueFillGo_map_projC ewf off bp cT cS S none 0
    have hpos := getElem?_proj_eq projC hCmap i
    rw [ha] at hpos
    simp only [Option.map_some'] at hpos
    obtain ⟨b, hSb, hb⟩ := Option.map_eq_some'.mp hpos.symm
    have hbe : b.eventId = a.eventId :=
      congrArg (fun t : Nat × Nat × ModificationValue × Bool => t.1) hb
    have hbd : b.shaderDiscarded = false := by
      have h3 := congrArg (fun t : Nat × Nat × ModificationValue × Bool => t.2.2.2) hb
      dsimp only [projC] at h3
      rw [h3, hnd]
    have hnext' : ∀ next, S[i+1]? = some next → next.eventId ≠ b.eventId := by
      intro next hn
      have hpos2 := getElem?_proj_eq projC hCmap (i+1)
      rw [hn] at hpos2
      simp only [Option.map_some'] at hpos2
      obtain ⟨na, hna, hna2⟩ := Option.map_eq_some'.mp hpos2
      have h5 : na.eventId = next.eventId :=
        congrArg (fun t : Nat × Nat × ModificationValue × Bool => t.1) hna2
      have h6 := hnext na hna
      rw [hbe, ← h5]
      exact h6
    obtain ⟨a', hout, hpost⟩ :=
      valueFillGo_postMod_last ewf off bp cT cS S none 0 i b hSb hbd hnext'
    rw [ha] at hout
    have haa : a = a' := Option.some.inj hout
    have hab : a.postMod = b.postMod := by rw [haa]; exact hpost
    have hA := primIdPass_map_projA ewf off bp l
    have hB1 := map_projB_of_map_projA hA
    have hSB : S.map projB = l.map projB := by
      rw [hS]
      split_ifs
      · rw [discardPass_map_projB]
        exact hB1
      · exact hB1
    have hpos3 := getElem?_proj_eq projB hSB i
    rw [hSb] at hpos3
    simp only [Option.map_some'] at hpos3
    obtain ⟨c, hc, hc2⟩ := Option.map_eq_some'.mp hpos3.symm
    have hce : c.eventId = b.eventId :=
      congrArg (fun t : Nat × Nat × ModificationValue × ModificationValue => t.1) hc2
    have hcp : c.postMod = b.postMod :=
      congrArg (fun t : Nat × Nat × ModificationValue × ModificationValue => t.2.2.2) hc2
    exact ⟨c, hc, by rw [hce, hbe], by rw [hcp, hab]⟩

/-- C2, corrected: in the returned history, the pre-modification value of
every fragment entry of a captured event equals the event-level
pre-modification value read back by the modification-capture pass — it is
never chained from the previous fragment's post-modification value — and
the post-modification value of the last fragment entry of an event, when
that fragment was not shader-discarded, equals the event's
post-modification value captured independently by the
modification-capture pass. -/
theorem fragmentValues_spec (o : PixelHistoryOracles) (events : List EventUsage) :
    (∀ m ∈ pixelHistoryCore o events, ∀ idx, o.evIdx m.eventId = some idx →
      m.preMod = fillInValue o.convT (o.buf idx).premod) ∧
    (∀ i a, (pixelHistoryCore o events)[i]? = some a →
      a.shaderDiscarded = false →
      (∀ next, (pixelHistoryCore o events)[i+1]? = some next →
        next.eventId ≠ a.eventId) →
      ∀ idx, o.evIdx a.eventId = some idx →
      a.postMod = fillInValue o.convT (o.buf idx).postmod) := by
  have hcore : pixelHistoryCore o events =
      perFragmentPhase
        (expandHistory o.evIdx o.buf o.convT
          (buildInitialHistory o.occl o.flagsOf o.tfOccl events)).2
        o.offsetOf o.bp o.discardOccl o.convT o.convS
        (expandHistory o.evIdx o.buf o.convT
          (buildInitialHistory o.occl o.flagsOf o.tfOccl events)).1 := rfl
  constructor
  · intro m hm idx hidx
    rw [hcore] at hm
    have h1 := List.mem_map_of_mem projPre hm
    rw [perFragmentPhase_map_projPre] at h1
    obtain ⟨m0, hm0, hpe⟩ := List.mem_map.mp h1
    have he : m0.eventId = m.eventId := congrArg Prod.fst hpe
    have hpre : m0.preMod = m.preMod := congrArg Prod.snd hpe
    rw [← hpre]
    exact (expandHistory_values o.evIdx o.buf o.convT _ m0 hm0 idx
      (by rw [he]; exact hidx)).1
  · intro i a ha hnd hnext idx hidx
    rw [hcore] at ha hnext
    obtain ⟨c, hc, hce, hcp⟩ := perFragmentPhase_postMod_last _ o.offsetOf o.bp
      o.discardOccl o.convT o.convS _ i a ha hnd hnext
    have hcmem : c ∈ (expandHistory o.evIdx o.buf o.convT
        (buildInitialHistory o.occl o.flagsOf o.tfOccl events)).1 :=
      List.getElem?_mem hc
    rw [← hcp]
    exact (expandHistory_values o.evIdx o.buf o.convT _ c hcmem idx
      (by rw [hce]; exact hidx)).2

/-- Counterexample to C2 as stated: for the single two-fragment draw of
`oC2`, fragment 0 and fragment 1 belong to the same event, but the
post-modification value of fragment 0 (color 5, from the per-fragment
decomposition) differs from the pre-modification value of fragment 1
(color 3, the event-level pre-modification value shared by all
fragments). -/
theorem fragmentValues_counterexample :
    ((pixelHistoryCore oC2 [⟨1, ResourceUsage.ColorTarget⟩])[0]?.map
        fun m => (m.eventId, m.fragIndex, m.postMod)) =
      some (1, 0, ⟨5, 0, 0⟩) ∧
    ((pixelHistoryCore oC2 [⟨1, ResourceUsage.ColorTarget⟩])[1]?.map
        fun m => (m.eventId, m.fragIndex, m.preMod)) =
      some (1, 1, ⟨3, 0, 0⟩) ∧
    (⟨5, 0, 0⟩ : ModificationValue) ≠ ⟨3, 0, 0⟩ :=
  ⟨rfl, rfl, by decide⟩

/-- Witness for C2 at the two-fragment draw of `oC2`: the last fragment's
post-modification value is the event-level captured value (color 7). -/
theorem fragmentValues_spec_witness :
    ((pixelHistoryCore oC2 [⟨1, ResourceUsage.ColorTarget⟩])[1]?.map
        fun m => m.postMod) = some ⟨7, 0, 0⟩ := by
  have h := (fragmentValues_spec oC2 [⟨1, ResourceUsage.ColorTarget⟩]).2
  cases hh : (pixelHistoryCore oC2 [⟨1, ResourceUsage.ColorTarget⟩])[1]? with
  | none =>
    have h1 : (pixelHistoryCore oC2 [⟨1, ResourceUsage.ColorTarget⟩])[1]?.isSome =
        true := rfl
    rw [hh] at h1
    cases h1
  | some a =>
    have h1 : (pixelHistoryCore oC2 [⟨1, ResourceUsage.ColorTarget⟩])[1]?.map
        (fun m => m.shaderDiscarded) = some false := rfl
    rw [hh] at h1
    have hnd : a.shaderDiscarded = false := by simpa using h1
    have h2 : (pixelHistoryCore oC2 [⟨1, ResourceUsage.ColorTarget⟩])[1]?.map
        (fun m => m.eventId) = some 1 := rfl
    rw [hh] at h2
    have heid : a.eventId = 1 := by simpa using h2
    have hnext : ∀ next,
        (pixelHistoryCore oC2 [⟨1, ResourceUsage.ColorTarget⟩])[1+1]? = some next →
        next.eventId ≠ a.eventId := by
      intro next hn
      have h3 : (pixelHistoryCore oC2 [⟨1, ResourceUsage.ColorTarget⟩])[1+1]? =
          none := rfl
      rw [h3] at hn
      cases hn
    have hidx : oC2.evIdx a.eventId = some 0 := by rw [heid]; rfl
    have hpost := h 1 a hh hnd hnext 0 hidx
    rw [Option.map_some', hpost]
    rfl

/-- Witness for C1: with all-zero occlusion results, the clear event 1 is
kept in the history and the draw event 2 is dropped. -/
theorem clearKept_zeroDrawDropped_spec_witness :
    (∃ m ∈ pixelHistoryCore trivialOracles
        [⟨1, ResourceUsage.Clear⟩, ⟨2, ResourceUsage.ColorTarget⟩], m.eventId = 1) ∧
    (∀ m ∈ pixelHistoryCore trivialOracles
        [⟨1, ResourceUsage.Clear⟩, ⟨2, ResourceUsage.ColorTarget⟩], m.eventId ≠ 2) :=
  ⟨(clearKept_zeroDrawDropped_spec trivialOracles
      [⟨1, ResourceUsage.Clear⟩, ⟨2, ResourceUsage.ColorTarget⟩]).1
      ⟨1, ResourceUsage.Clear⟩ (by decide) (Or.inl rfl),
    (clearKept_zeroDrawDropped_spec trivialOracles
      [⟨1, ResourceUsage.Clear⟩, ⟨2, ResourceUsage.ColorTarget⟩]).2
      2 (by decide) rfl⟩

end VkPixelHistory
